import Mathlib

/-!
Shallow embedding of the Quant Enthusiasts Risk Engine (C++ sources under
`src/cpp_engine/src`) and verification of specification claims about it.

Modelling conventions
- C++ `double` arithmetic is modelled by exact real arithmetic over `ℝ`;
  `std::isnan` / `std::isinf` checks are vacuous in this idealisation and are
  therefore dropped where they appear in the source.
- C++ `int` is modelled by `ℤ` (with explicit `INT_MAX` / `INT_MIN` bounds
  where the source checks them), `unsigned int` seeds by `ℕ`.
- Functions that may throw are embedded with `Except Err`; each C++ `throw`
  becomes an `Except.error` carrying the same message.
- `std::erf` is modelled by the mathematical error function, defined below
  through its everywhere-convergent Maclaurin series.
- The Mersenne-Twister generator combined with `std::normal_distribution` is
  modelled as an abstract draw stream `ℕ → ℕ → ℝ` mapping a seed to the
  sequence of normal draws it produces; the nondeterministic `std::random_device`
  seed is an explicit `entropy` argument consumed only when `use_fixed_seed`
  is false, exactly as in `RiskEngine::calculateRiskMetrics`.
-/

set_option genSizeOfSpec false

set_option genInjectivity false

/-- Error kinds thrown by the engine, mirroring the `std::exception`
subclasses used in the C++ sources. -/
inductive Err where
  | invalidArgument (msg : String)
  | runtimeError (msg : String)
  | overflowError (msg : String)
  | outOfRange (msg : String)

/-- The mathematical error function, modelling `std::erf` from
`BlackScholes.cpp`, defined through its everywhere-convergent Maclaurin
series `erf x = (2/√π) Σ (-1)^n x^(2n+1) / (n! (2n+1))`. -/
noncomputable def erf (x : ℝ) : ℝ :=
  2 / Real.sqrt Real.pi *
    tsum (fun n : ℕ => (-1) ^ n * x ^ (2 * n + 1) / ((n.factorial : ℝ) * (2 * n + 1)))

theorem erf_neg (x : ℝ) : erf (-x) = -erf x := by
  unfold erf
  rw [← mul_neg, ← tsum_neg]
  refine congrArg _ (tsum_congr fun n => ?_)
  rw [Odd.neg_pow (odd_two_mul_add_one n), mul_neg, neg_div]

namespace BlackScholes

/-- Standard normal CDF, from `BlackScholes.cpp` line 12:
`0.5 * (1.0 + std::erf(z / std::sqrt(2.0)))`. -/
noncomputable def N (z : ℝ) : ℝ := 0.5 * (1 + erf (z / Real.sqrt 2))

/-- Standard normal density, from `BlackScholes.cpp` line 16. -/
noncomputable def nPrime (z : ℝ) : ℝ :=
  1 / Real.sqrt (2 * Real.pi) * Real.exp (-0.5 * z ^ 2)

theorem N_add_N_neg (z : ℝ) : N z + N (-z) = 1 := by
  unfold N
  rw [neg_div, erf_neg]
  ring

/-- Input validation from `BlackScholes.cpp` lines 20-48.  The `isnan` /
`isinf` checks are vacuous over `ℝ` and are dropped. -/
noncomputable def validateInputs (S K _r T sigma : ℝ) : Except Err Unit :=
  if S ≤ 0 then .error (.invalidArgument "Spot price must be positive")
  else if K ≤ 0 then .error (.invalidArgument "Strike price must be positive")
  else if T < 0 then .error (.invalidArgument "Time to expiry cannot be negative")
  else if sigma < 0 then .error (.invalidArgument "Volatility cannot be negative")
  else .ok ()

/-- The Black-Scholes `d1` term, as computed inline throughout
`BlackScholes.cpp`. -/
noncomputable def d1 (S K r T sigma : ℝ) : ℝ :=
  (Real.log (S / K) + (r + 0.5 * sigma * sigma) * T) / (sigma * Real.sqrt T)

/-- The Black-Scholes `d2` term, `d1 - sigma * sqrt(T)`. -/
noncomputable def d2 (S K r T sigma : ℝ) : ℝ :=
  d1 S K r T sigma - sigma * Real.sqrt T

/-- Value returned by `callPrice` once validation has passed
(`BlackScholes.cpp` lines 53-60). -/
noncomputable def callValue (S K r T sigma : ℝ) : ℝ :=
  if T ≤ 0 ∨ sigma ≤ 0 then max 0 (S - K)
  else S * N (d1 S K r T sigma) - K * Real.exp (-(r * T)) * N (d2 S K r T sigma)

/-- Value returned by `putPrice` once validation has passed
(`BlackScholes.cpp` lines 66-73). -/
noncomputable def putValue (S K r T sigma : ℝ) : ℝ :=
  if T ≤ 0 ∨ sigma ≤ 0 then max 0 (K - S)
  else K * Real.exp (-(r * T)) * N (-d2 S K r T sigma) - S * N (-d1 S K r T sigma)

/-- `BlackScholes::callPrice` (`BlackScholes.cpp` lines 50-61). -/
noncomputable def callPrice (S K r T sigma : ℝ) : Except Err ℝ := do
  validateInputs S K r T sigma
  pure (callValue S K r T sigma)

/-- `BlackScholes::putPrice` (`BlackScholes.cpp` lines 63-74). -/
noncomputable def putPrice (S K r T sigma : ℝ) : Except Err ℝ := do
  validateInputs S K r T sigma
  pure (putValue S K r T sigma)

/-- `BlackScholes::callDelta` (`BlackScholes.cpp` lines 76-85). -/
noncomputable def callDelta (S K r T sigma : ℝ) : Except Err ℝ := do
  validateInputs S K r T sigma
  if T ≤ 0 ∨ sigma ≤ 0 then pure (if S > K then 1 else 0)
  else pure (N (d1 S K r T sigma))

/-- `BlackScholes::putDelta` (`BlackScholes.cpp` lines 87-96). -/
noncomputable def putDelta (S K r T sigma : ℝ) : Except Err ℝ := do
  validateInputs S K r T sigma
  if T ≤ 0 ∨ sigma ≤ 0 then pure (if S < K then -1 else 0)
  else pure (N (d1 S K r T sigma) - 1)

/-- `BlackScholes::gamma` (`BlackScholes.cpp` lines 98-107). -/
noncomputable def gamma (S K r T sigma : ℝ) : Except Err ℝ := do
  validateInputs S K r T sigma
  if T ≤ 0 ∨ sigma ≤ 0 then pure 0
  else pure (nPrime (d1 S K r T sigma) / (S * sigma * Real.sqrt T))

/-- `BlackScholes::vega` (`BlackScholes.cpp` lines 109-118). -/
noncomputable def vega (S K r T sigma : ℝ) : Except Err ℝ := do
  validateInputs S K r T sigma
  if T ≤ 0 ∨ sigma ≤ 0 then pure 0
  else pure (S * nPrime (d1 S K r T sigma) * Real.sqrt T)

/-- `BlackScholes::callTheta` (`BlackScholes.cpp` lines 120-134). -/
noncomputable def callTheta (S K r T sigma : ℝ) : Except Err ℝ := do
  validateInputs S K r T sigma
  if T ≤ 0 ∨ sigma ≤ 0 then pure 0
  else
    pure ((-(S * nPrime (d1 S K r T sigma) * sigma) / (2 * Real.sqrt T) -
      r * K * Real.exp (-(r * T)) * N (d2 S K r T sigma)) / 365)

/-- `BlackScholes::putTheta` (`BlackScholes.cpp` lines 136-150). -/
noncomputable def putTheta (S K r T sigma : ℝ) : Except Err ℝ := do
  validateInputs S K r T sigma
  if T ≤ 0 ∨ sigma ≤ 0 then pure 0
  else
    pure ((-(S * nPrime (d1 S K r T sigma) * sigma) / (2 * Real.sqrt T) +
      r * K * Real.exp (-(r * T)) * N (-d2 S K r T sigma)) / 365)

/-- The Newton-Raphson loop body of `BlackScholes::impliedVolatility`
(`BlackScholes.cpp` lines 200-228), with the remaining iteration count as
fuel.  Exhausting the fuel is the `max_iterations` failure at line 230. -/
noncomputable def newtonIter (S K r T : ℝ) (is_call : Bool) (market tolerance : ℝ) :
    ℕ → ℝ → Except Err ℝ
  | 0, _ => .error (.runtimeError "Implied volatility did not converge")
  | fuel + 1, sigma =>
    match (if is_call then callPrice S K r T sigma else putPrice S K r T sigma) with
    | .error _ =>
      .error (.runtimeError "Failed to calculate option price during IV search")
    | .ok price =>
      let price_diff := price - market
      if |price_diff| < tolerance then .ok sigma
      else
        match vega S K r T sigma with
        | .error e => .error e
        | .ok vega_val =>
          if vega_val < 1e-10 then
            .error (.runtimeError "Vega too small for Newton-Raphson")
          else
            let sigma1 := sigma - price_diff / vega_val
            let sigma2 := if sigma1 ≤ 0 then 0.01 else sigma1
            let sigma3 := if sigma2 > 10 then 10 else sigma2
            newtonIter S K r T is_call market tolerance fuel sigma3

/-- `BlackScholes::impliedVolatility` (`BlackScholes.cpp` lines 178-231). -/
noncomputable def impliedVolatility (market_price S K r T : ℝ) (is_call : Bool)
    (initial_guess tolerance : ℝ) (max_iterations : ℤ) : Except Err ℝ := do
  validateInputs S K r T initial_guess
  if market_price < 0 then
    .error (.invalidArgument "Market price cannot be negative")
  else if T ≤ 0 then
    .error (.invalidArgument "Cannot calculate implied volatility for expired option")
  else
    let intrinsic := if is_call then max 0 (S - K) else max 0 (K - S)
    if market_price < intrinsic - 1e-10 then
      .error (.invalidArgument "Market price below intrinsic value")
    else
      newtonIter S K r T is_call market_price tolerance max_iterations.toNat initial_guess

theorem validateInputs_ok (S K r T sigma : ℝ) (hS : 0 < S) (hK : 0 < K)
    (hT : 0 ≤ T) (hsigma : 0 ≤ sigma) : validateInputs S K r T sigma = .ok () := by
  unfold validateInputs
  rw [if_neg (by linarith), if_neg (by linarith), if_neg (by linarith),
    if_neg (by linarith)]

theorem callPrice_ok (S K r T sigma : ℝ) (hS : 0 < S) (hK : 0 < K)
    (hT : 0 ≤ T) (hsigma : 0 ≤ sigma) :
    callPrice S K r T sigma = .ok (callValue S K r T sigma) := by
  unfold callPrice
  rw [validateInputs_ok S K r T sigma hS hK hT hsigma]
  rfl

theorem putPrice_ok (S K r T sigma : ℝ) (hS : 0 < S) (hK : 0 < K)
    (hT : 0 ≤ T) (hsigma : 0 ≤ sigma) :
    putPrice S K r T sigma = .ok (putValue S K r T sigma) := by
  unfold putPrice
  rw [validateInputs_ok S K r T sigma hS hK hT hsigma]
  rfl

theorem newtonIter_call_converges (S K r T market tolerance sigma p : ℝ) (fuel : ℕ)
    (hp : callPrice S K r T sigma = .ok p) (htol : |p - market| < tolerance) :
    newtonIter S K r T true market tolerance (fuel + 1) sigma = .ok sigma := by
  unfold newtonIter
  simp only [if_true, Bool.true_eq]
  rw [hp]
  exact if_pos htol

end BlackScholes

theorem except_bind_ok {α β : Type} (a : α) (f : α → Except Err β) :
    (Except.ok a >>= f) = f a := rfl

theorem except_bind_error {α β : Type} (e : Err) (f : α → Except Err β) :
    ((Except.error e : Except Err α) >>= f) = Except.error e := rfl

/-- The no-arbitrage upper bound for a European option price.  Modelled from
the spec: section 4.2 rejects a "market price ... above no-arbitrage upper
bound"; for a call this is the spot `S`, for a put the discounted strike
`K e^{-rT}`.  The code under `src/` performs no such check, so this
definition follows the spec's words and is compared against the code. -/
noncomputable def noArbUpperBound (is_call : Bool) (S K r T : ℝ) : ℝ :=
  if is_call then S else K * Real.exp (-(r * T))

/-- C3 (amended, part that holds): `impliedVolatility` fails with an error
whenever the market price is below the option's intrinsic value by more than
`1e-10`; no volatility is returned in that case.  There is no upper-bound
check in the code (see `c3_counterexample`). -/
theorem c3_implied_vol_below_intrinsic_fails (market_price S K r T : ℝ)
    (is_call : Bool) (initial_guess tolerance : ℝ) (max_iterations : ℤ)
    (h : market_price < (if is_call then max 0 (S - K) else max 0 (K - S)) - 1e-10) :
    (BlackScholes.impliedVolatility market_price S K r T is_call initial_guess
      tolerance max_iterations).isOk = false := by
  have hintr : (0:ℝ) ≤ if is_call then max 0 (S - K) else max 0 (K - S) := by
    split_ifs <;> exact le_max_left _ _
  unfold BlackScholes.impliedVolatility
  cases hv : BlackScholes.validateInputs S K r T initial_guess with
  | error e =>
    rw [except_bind_error]
    rfl
  | ok u =>
    rw [except_bind_ok]
    by_cases h1 : market_price < 0
    · rw [if_pos h1]
      rfl
    · rw [if_neg h1]
      by_cases h2 : T ≤ 0
      · rw [if_pos h2]
        rfl
      · rw [if_neg h2]
        show (if market_price <
            (if is_call = true then max 0 (S - K) else max 0 (K - S)) - 1e-10 then
            (Except.error (Err.invalidArgument "Market price below intrinsic value") :
              Except Err ℝ)
          else BlackScholes.newtonIter S K r T is_call market_price tolerance
            max_iterations.toNat initial_guess).isOk = false
        rw [if_pos h]
        rfl

/-- C3 counterexample: with market price `200` strictly above the
no-arbitrage upper bound `S = 100` of the call, `impliedVolatility` does not
fail; it returns the initial guess `0` (the supplied tolerance accepts the
first Newton iterate `max 0 (S - K) = 0`), so the claimed upper-bound
rejection does not exist in the code. -/
theorem c3_counterexample :
    noArbUpperBound true 100 100 0 1 < 200 ∧
    BlackScholes.impliedVolatility 200 100 100 0 1 true 0 1000 100 =
      .ok 0 := by
  constructor
  · unfold noArbUpperBound
    norm_num
  · have hp : BlackScholes.callPrice 100 100 0 1 0 = .ok 0 := by
      rw [BlackScholes.callPrice_ok 100 100 0 1 0 (by norm_num) (by norm_num)
        (by norm_num) le_rfl]
      unfold BlackScholes.callValue
      rw [if_pos (Or.inr le_rfl)]
      norm_num
    have htol : |(0:ℝ) - 200| < 1000 := by
      rw [abs_lt]
      constructor <;> norm_num
    unfold BlackScholes.impliedVolatility
    rw [BlackScholes.validateInputs_ok 100 100 0 1 0 (by norm_num)
      (by norm_num) (by norm_num) le_rfl, except_bind_ok]
    rw [if_neg (by norm_num), if_neg (by norm_num)]
    have hmax : max (0:ℝ) (100 - 100) = 0 := by norm_num
    simp only [if_true, Bool.true_eq, hmax]
    rw [if_neg (by norm_num)]
    have h100 : ((100:ℤ).toNat) = 99 + 1 := by rfl
    rw [h100]
    exact BlackScholes.newtonIter_call_converges 100 100 0 1 200 1000 0 0 99 hp htol

/-- C6: put-call parity.  For validated inputs with `T > 0` and `sigma > 0`,
`callPrice` and `putPrice` succeed and their values satisfy
`C - P = S - K e^{-rT}` (exactly, hence to within `1e-8`), relying on the
shared normal CDF identity `N(z) + N(-z) = 1`. -/
theorem c6_put_call_parity (S K r T sigma : ℝ) (hS : 0 < S) (hK : 0 < K)
    (hT : 0 < T) (hsigma : 0 < sigma) :
    (∀ z, BlackScholes.N z + BlackScholes.N (-z) = 1) ∧
    BlackScholes.callPrice S K r T sigma = .ok (BlackScholes.callValue S K r T sigma) ∧
    BlackScholes.putPrice S K r T sigma = .ok (BlackScholes.putValue S K r T sigma) ∧
    |BlackScholes.callValue S K r T sigma - BlackScholes.putValue S K r T sigma -
      (S - K * Real.exp (-(r * T)))| ≤ 1e-8 := by
  refine ⟨BlackScholes.N_add_N_neg,
    BlackScholes.callPrice_ok S K r T sigma hS hK hT.le hsigma.le,
    BlackScholes.putPrice_ok S K r T sigma hS hK hT.le hsigma.le, ?_⟩
  have hno : ¬(T ≤ 0 ∨ sigma ≤ 0) := by
    push_neg
    exact ⟨hT, hsigma⟩
  have hd1 := BlackScholes.N_add_N_neg (BlackScholes.d1 S K r T sigma)
  have hd2 := BlackScholes.N_add_N_neg (BlackScholes.d2 S K r T sigma)
  unfold BlackScholes.callValue BlackScholes.putValue
  rw [if_neg hno, if_neg hno]
  have : S * BlackScholes.N (BlackScholes.d1 S K r T sigma) -
      K * Real.exp (-(r * T)) * BlackScholes.N (BlackScholes.d2 S K r T sigma) -
      (K * Real.exp (-(r * T)) * BlackScholes.N (-BlackScholes.d2 S K r T sigma) -
        S * BlackScholes.N (-BlackScholes.d1 S K r T sigma)) -
      (S - K * Real.exp (-(r * T))) = 0 := by
    linear_combination S * hd1 - K * Real.exp (-(r * T)) * hd2
  rw [this]
  norm_num

/-- C6 witness: parity at `S = 100`, `K = 100`, `r = 0.05`, `T = 1`,
`sigma = 0.2`. -/
theorem c6_put_call_parity_witness :
    (∀ z, BlackScholes.N z + BlackScholes.N (-z) = 1) ∧
    BlackScholes.callPrice 100 100 (5/100) 1 (2/10) =
      .ok (BlackScholes.callValue 100 100 (5/100) 1 (2/10)) ∧
    BlackScholes.putPrice 100 100 (5/100) 1 (2/10) =
      .ok (BlackScholes.putValue 100 100 (5/100) 1 (2/10)) ∧
    |BlackScholes.callValue 100 100 (5/100) 1 (2/10) -
      BlackScholes.putValue 100 100 (5/100) 1 (2/10) -
      (100 - 100 * Real.exp (-((5/100) * 1)))| ≤ 1e-8 :=
  c6_put_call_parity 100 100 (5/100) 1 (2/10) (by norm_num) (by norm_num)
    (by norm_num) (by norm_num)

/-- C3 witness: a market price of `-1` is below the intrinsic value `0` of
the at-the-money call by more than `1e-10`, and the search fails. -/
theorem c3_implied_vol_below_intrinsic_witness :
    ((-1:ℝ) < (if true then max 0 ((100:ℝ) - 100) else max 0 ((100:ℝ) - 100)) - 1e-10) ∧
    (BlackScholes.impliedVolatility (-1) 100 100 0 1 true (3/10) (1e-6) 100).isOk
      = false :=
  ⟨by norm_num, c3_implied_vol_below_intrinsic_fails (-1) 100 100 0 1 true (3/10)
    (1e-6) 100 (by norm_num)⟩


namespace BinomialTree

/-- Effective step count: `BinomialTree.cpp` lines 15 and 60 replace a
non-positive `steps` argument by the default `100`. -/
def effSteps (steps : ℤ) : ℤ := if steps ≤ 0 then 100 else steps

/-- The Cox-Ross-Rubinstein risk-neutral probability
`p = (e^{r dt} - d) / (u - d)` computed at `BinomialTree.cpp` line 21/66,
with `dt = T / steps`, `u = e^{sigma sqrt(dt)}`, `d = 1/u`. -/
noncomputable def crrProbability (r T sigma : ℝ) (steps : ℤ) : ℝ :=
  let n := (effSteps steps).toNat
  let dt := T / (n : ℝ)
  let u := Real.exp (sigma * Real.sqrt dt)
  let d := 1 / u
  (Real.exp (r * dt) - d) / (u - d)

/-- Backward induction over the CRR tree (`BinomialTree.cpp` lines 24-51 and
69-96).  `crrValues S u d p disc payoff n k i` is the option value at node
`i` of level `n - k`: `k = 0` is the terminal payoff layer and each
successor step applies one backward-induction sweep, taking the maximum of
the discounted continuation value and the early-exercise value (American
exercise at line 49/94). -/
noncomputable def crrValues (S u d p disc : ℝ) (payoff : ℝ → ℝ) (n : ℕ) :
    ℕ → ℕ → ℝ
  | 0, i => payoff (S * u ^ (n - i) * d ^ i)
  | k + 1, i =>
    max (disc * (p * crrValues S u d p disc payoff n k i +
        (1 - p) * crrValues S u d p disc payoff n k (i + 1)))
      (payoff (S * u ^ (n - (k + 1) - i) * d ^ i))

/-- `BinomialTree::americanCallPrice` (`BinomialTree.cpp` lines 11-54).
The function contains no `throw`: it returns intrinsic value for `T ≤ 0` or
`sigma ≤ 0`, substitutes `steps = 100` for non-positive step counts, and
otherwise runs CRR backward induction without any check on `p`. -/
noncomputable def americanCallPrice (S K r T sigma : ℝ) (steps : ℤ) :
    Except Err ℝ :=
  if T ≤ 0 then .ok (max 0 (S - K))
  else if sigma ≤ 0 then .ok (max 0 (S - K))
  else
    let n := (effSteps steps).toNat
    let dt := T / (n : ℝ)
    let u := Real.exp (sigma * Real.sqrt dt)
    let d := 1 / u
    let p := (Real.exp (r * dt) - d) / (u - d)
    let disc := Real.exp (-(r * dt))
    .ok (crrValues S u d p disc (fun x => max 0 (x - K)) n n 0)

/-- `BinomialTree::americanPutPrice` (`BinomialTree.cpp` lines 56-99). -/
noncomputable def americanPutPrice (S K r T sigma : ℝ) (steps : ℤ) :
    Except Err ℝ :=
  if T ≤ 0 then .ok (max 0 (K - S))
  else if sigma ≤ 0 then .ok (max 0 (K - S))
  else
    let n := (effSteps steps).toNat
    let dt := T / (n : ℝ)
    let u := Real.exp (sigma * Real.sqrt dt)
    let d := 1 / u
    let p := (Real.exp (r * dt) - d) / (u - d)
    let disc := Real.exp (-(r * dt))
    .ok (crrValues S u d p disc (fun x => max 0 (K - x)) n n 0)

/-- `BinomialTree::americanDelta` (`BinomialTree.cpp` lines 101-115). -/
noncomputable def americanDelta (is_call : Bool) (S K r T sigma : ℝ)
    (steps : ℤ) (bump : ℝ) : Except Err ℝ := do
  let price_up ← if is_call then americanCallPrice (S + bump) K r T sigma steps
    else americanPutPrice (S + bump) K r T sigma steps
  let price_down ← if is_call then americanCallPrice (S - bump) K r T sigma steps
    else americanPutPrice (S - bump) K r T sigma steps
  pure ((price_up - price_down) / (2 * bump))

/-- `BinomialTree::americanGamma` (`BinomialTree.cpp` lines 117-133). -/
noncomputable def americanGamma (is_call : Bool) (S K r T sigma : ℝ)
    (steps : ℤ) (bump : ℝ) : Except Err ℝ := do
  let price_center ← if is_call then americanCallPrice S K r T sigma steps
    else americanPutPrice S K r T sigma steps
  let price_up ← if is_call then americanCallPrice (S + bump) K r T sigma steps
    else americanPutPrice (S + bump) K r T sigma steps
  let price_down ← if is_call then americanCallPrice (S - bump) K r T sigma steps
    else americanPutPrice (S - bump) K r T sigma steps
  pure ((price_up - 2 * price_center + price_down) / (bump * bump))

/-- `BinomialTree::americanVega` (`BinomialTree.cpp` lines 135-149). -/
noncomputable def americanVega (is_call : Bool) (S K r T sigma : ℝ)
    (steps : ℤ) (bump : ℝ) : Except Err ℝ := do
  let price_up ← if is_call then americanCallPrice S K r T (sigma + bump) steps
    else americanPutPrice S K r T (sigma + bump) steps
  let price_down ← if is_call then americanCallPrice S K r T (sigma - bump) steps
    else americanPutPrice S K r T (sigma - bump) steps
  pure ((price_up - price_down) / (2 * bump))

/-- `BinomialTree::americanTheta` (`BinomialTree.cpp` lines 151-169). -/
noncomputable def americanTheta (is_call : Bool) (S K r T sigma : ℝ)
    (steps : ℤ) (bump : ℝ) : Except Err ℝ :=
  if T ≤ bump then .ok 0
  else do
    let price_current ← if is_call then americanCallPrice S K r T sigma steps
      else americanPutPrice S K r T sigma steps
    let price_later ← if is_call then americanCallPrice S K r (T - bump) sigma steps
      else americanPutPrice S K r (T - bump) sigma steps
    pure ((price_later - price_current) / bump)

theorem americanCallPrice_isOk (S K r T sigma : ℝ) (steps : ℤ) :
    (americanCallPrice S K r T sigma steps).isOk = true := by
  unfold americanCallPrice
  split_ifs <;> rfl

theorem americanPutPrice_isOk (S K r T sigma : ℝ) (steps : ℤ) :
    (americanPutPrice S K r T sigma steps).isOk = true := by
  unfold americanPutPrice
  split_ifs <;> rfl

theorem effSteps_of_nonpos (steps : ℤ) (h : steps ≤ 0) :
    effSteps steps = 100 := if_pos h

end BinomialTree

namespace JumpDiffusion

/-- The `log i` subtraction loop of `poissonProbability`
(`JumpDiffusion.cpp` lines 22-24): the sum of `log i` for `i = 2..n`. -/
noncomputable def logFactSum (n : ℕ) : ℝ := ∑ i in Finset.Icc 2 n, Real.log i

/-- `JumpDiffusion::poissonProbability` (`JumpDiffusion.cpp` lines 9-27). -/
noncomputable def poissonProbability (n : ℤ) (lambda_t : ℝ) : Except Err ℝ :=
  if lambda_t < 0 then
    .error (.invalidArgument "Lambda * T must be non-negative")
  else if n < 0 then
    .error (.invalidArgument "Number of jumps cannot be negative")
  else if lambda_t = 0 then .ok (if n = 0 then 1 else 0)
  else .ok (Real.exp ((n : ℝ) * Real.log lambda_t - lambda_t - logFactSum n.toNat))

/-- One iteration of the Poisson-weighted series loop of `mertonCallPrice`
and `mertonPutPrice` (`JumpDiffusion.cpp` lines 57-79 and 115-137), with the
remaining loop iterations as fuel, the current jump count `n`, and the
accumulators `option_value` and `sum_prob`. -/
noncomputable def mertonSeries
    (isCall : Bool) (S K r T sigma lambda jump_mean jump_vol k : ℝ) :
    ℕ → ℤ → ℝ → ℝ → Except Err ℝ
  | 0, _, option_value, _ => .ok option_value
  | fuel + 1, n, option_value, sum_prob => do
    let prob ← poissonProbability n (lambda * T)
    if prob < 1e-10 then .ok option_value
    else
      let sum_prob2 := sum_prob + prob
      let sigma_n := Real.sqrt (sigma * sigma + (n : ℝ) * jump_vol * jump_vol / T)
      let r_n := r - lambda * k + (n : ℝ) * (jump_mean + 0.5 * jump_vol * jump_vol) / T
      let bs_price ← (if isCall then BlackScholes.callPrice S K r_n T sigma_n
        else BlackScholes.putPrice S K r_n T sigma_n)
      let option_value2 := option_value + prob * bs_price
      if sum_prob2 > 0.9999 ∧ prob < 1e-8 then .ok option_value2
      else
        mertonSeries isCall S K r T sigma lambda jump_mean jump_vol k fuel (n + 1)
            option_value2 sum_prob2

/-- `JumpDiffusion::mertonCallPrice` (`JumpDiffusion.cpp` lines 29-86). -/
noncomputable def mertonCallPrice (S K r T sigma lambda jump_mean jump_vol : ℝ)
    (max_jumps : ℤ) : Except Err ℝ :=
  if S ≤ 0 ∨ K ≤ 0 then
    .error (.invalidArgument "Stock price and strike must be positive")
  else if T < 0 then
    .error (.invalidArgument "Time to expiry cannot be negative")
  else if sigma < 0 ∨ jump_vol < 0 then
    .error (.invalidArgument "Volatilities cannot be negative")
  else if lambda < 0 then
    .error (.invalidArgument "Jump intensity must be non-negative")
  else if T = 0 then .ok (max 0 (S - K))
  else
    let k := Real.exp (jump_mean + 0.5 * jump_vol * jump_vol) - 1
    mertonSeries true S K r T sigma lambda jump_mean jump_vol k
      (max_jumps + 1).toNat 0 0 0

/-- `JumpDiffusion::mertonPutPrice` (`JumpDiffusion.cpp` lines 88-144). -/
noncomputable def mertonPutPrice (S K r T sigma lambda jump_mean jump_vol : ℝ)
    (max_jumps : ℤ) : Except Err ℝ :=
  if S ≤ 0 ∨ K ≤ 0 then
    .error (.invalidArgument "Stock price and strike must be positive")
  else if T < 0 then
    .error (.invalidArgument "Time to expiry cannot be negative")
  else if sigma < 0 ∨ jump_vol < 0 then
    .error (.invalidArgument "Volatilities cannot be negative")
  else if lambda < 0 then
    .error (.invalidArgument "Jump intensity must be non-negative")
  else if T = 0 then .ok (max 0 (K - S))
  else
    let k := Real.exp (jump_mean + 0.5 * jump_vol * jump_vol) - 1
    mertonSeries false S K r T sigma lambda jump_mean jump_vol k
      (max_jumps + 1).toNat 0 0 0

theorem poissonProbability_zero_zero : poissonProbability 0 0 = .ok 1 := by
  unfold poissonProbability
  norm_num

theorem poissonProbability_one_zero : poissonProbability 1 0 = .ok 0 := by
  unfold poissonProbability
  norm_num

/-- With `lambda = 0`, the `n = 1` iteration of the series loop terminates
immediately because the Poisson weight is `0 < 1e-10`. -/
theorem mertonSeries_n_one (isCall : Bool)
    (S K r T sigma jump_mean jump_vol k : ℝ) (fuel : ℕ) (v s : ℝ) :
    mertonSeries isCall S K r T sigma 0 jump_mean jump_vol k (fuel + 1) 1 v s =
      .ok v := by
  rw [mertonSeries, zero_mul, poissonProbability_one_zero, except_bind_ok]
  rw [if_pos (by norm_num : (0:ℝ) < 1e-10)]

/-- With `lambda = 0`, the series loop reduces to exactly one Black-Scholes
evaluation: the `n = 0` Poisson weight is `1`, the adjusted volatility and
rate collapse to `sigma` and `r`, and the `n = 1` weight terminates the
loop. -/
theorem mertonSeries_lambda_zero (isCall : Bool)
    (S K r T sigma jump_mean jump_vol k : ℝ) (fuel : ℕ) (hsigma : 0 ≤ sigma) :
    mertonSeries isCall S K r T sigma 0 jump_mean jump_vol k (fuel + 2) 0 0 0 =
      (if isCall then BlackScholes.callPrice S K r T sigma
        else BlackScholes.putPrice S K r T sigma) := by
  have h2 : fuel + 2 = (fuel + 1) + 1 := rfl
  rw [h2, mertonSeries, zero_mul, poissonProbability_zero_zero, except_bind_ok]
  rw [if_neg (by norm_num : ¬((1:ℝ) < 1e-10))]
  have hsig : Real.sqrt (sigma * sigma + ((0:ℤ) : ℝ) * jump_vol * jump_vol / T)
      = sigma := by
    rw [Int.cast_zero, zero_mul, zero_mul, zero_div, add_zero]
    exact Real.sqrt_mul_self hsigma
  have hr : r - 0 * k + ((0:ℤ) : ℝ) * (jump_mean + 0.5 * jump_vol * jump_vol) / T
      = r := by
    rw [Int.cast_zero, zero_mul, zero_mul, zero_div, sub_zero, add_zero]
  simp only [hsig, hr]
  cases hbs : (if isCall then BlackScholes.callPrice S K r T sigma
      else BlackScholes.putPrice S K r T sigma) with
  | error e => rw [except_bind_error]
  | ok b =>
    rw [except_bind_ok]
    rw [if_neg (by norm_num : ¬((0:ℝ) + 1 > 0.9999 ∧ (1:ℝ) < 1e-8))]
    rw [show (0:ℤ) + 1 = 1 from rfl]
    rw [mertonSeries_n_one]
    rw [one_mul, zero_add]

end JumpDiffusion

/-- C8: with jump intensity `lambda = 0` the Merton jump-diffusion prices
coincide exactly with the pure Black-Scholes prices (same `S, K, r, T,
sigma`, same call/put kind, default `max_jumps = 50`), for every validated
input. -/
theorem c8_merton_lambda_zero (S K r T sigma jump_mean jump_vol : ℝ)
    (hS : 0 < S) (hK : 0 < K) (hT : 0 ≤ T) (hsigma : 0 ≤ sigma)
    (hjv : 0 ≤ jump_vol) :
    JumpDiffusion.mertonCallPrice S K r T sigma 0 jump_mean jump_vol 50 =
      BlackScholes.callPrice S K r T sigma ∧
    JumpDiffusion.mertonPutPrice S K r T sigma 0 jump_mean jump_vol 50 =
      BlackScholes.putPrice S K r T sigma := by
  have hv1 : ¬(S ≤ 0 ∨ K ≤ 0) := by
    push_neg
    exact ⟨hS, hK⟩
  have hv2 : ¬(T < 0) := not_lt.mpr hT
  have hv3 : ¬(sigma < 0 ∨ jump_vol < 0) := by
    push_neg
    exact ⟨hsigma, hjv⟩
  have hv4 : ¬((0:ℝ) < 0) := lt_irrefl 0
  have hfuel : ((50:ℤ) + 1).toNat = 49 + 2 := rfl
  constructor
  · unfold JumpDiffusion.mertonCallPrice
    rw [if_neg hv1, if_neg hv2, if_neg hv3, if_neg hv4]
    by_cases hT0 : T = 0
    · rw [if_pos hT0, hT0]
      rw [BlackScholes.callPrice_ok S K r 0 sigma hS hK le_rfl hsigma]
      unfold BlackScholes.callValue
      rw [if_pos (Or.inl le_rfl)]
    · rw [if_neg hT0]
      show JumpDiffusion.mertonSeries true S K r T sigma 0 jump_mean jump_vol
        (Real.exp (jump_mean + 0.5 * jump_vol * jump_vol) - 1)
        ((50:ℤ) + 1).toNat 0 0 0 = BlackScholes.callPrice S K r T sigma
      rw [hfuel, JumpDiffusion.mertonSeries_lambda_zero true S K r T sigma
        jump_mean jump_vol (Real.exp (jump_mean + 0.5 * jump_vol * jump_vol) - 1)
        49 hsigma]
      rw [if_pos rfl]
  · unfold JumpDiffusion.mertonPutPrice
    rw [if_neg hv1, if_neg hv2, if_neg hv3, if_neg hv4]
    by_cases hT0 : T = 0
    · rw [if_pos hT0, hT0]
      rw [BlackScholes.putPrice_ok S K r 0 sigma hS hK le_rfl hsigma]
      unfold BlackScholes.putValue
      rw [if_pos (Or.inl le_rfl)]
    · rw [if_neg hT0]
      show JumpDiffusion.mertonSeries false S K r T sigma 0 jump_mean jump_vol
        (Real.exp (jump_mean + 0.5 * jump_vol * jump_vol) - 1)
        ((50:ℤ) + 1).toNat 0 0 0 = BlackScholes.putPrice S K r T sigma
      rw [hfuel, JumpDiffusion.mertonSeries_lambda_zero false S K r T sigma
        jump_mean jump_vol (Real.exp (jump_mean + 0.5 * jump_vol * jump_vol) - 1)
        49 hsigma]
      rw [if_neg (by simp : ¬(false = true))]

/-- C8 witness: `S = 100`, `K = 90`, `r = 0.05`, `T = 2`, `sigma = 0.3`,
`jump_mean = 0.1`, `jump_vol = 0.2`. -/
theorem c8_merton_lambda_zero_witness :
    JumpDiffusion.mertonCallPrice 100 90 (5/100) 2 (3/10) 0 (1/10) (2/10) 50 =
      BlackScholes.callPrice 100 90 (5/100) 2 (3/10) ∧
    JumpDiffusion.mertonPutPrice 100 90 (5/100) 2 (3/10) 0 (1/10) (2/10) 50 =
      BlackScholes.putPrice 100 90 (5/100) 2 (3/10) :=
  c8_merton_lambda_zero 100 90 (5/100) 2 (3/10) (1/10) (2/10) (by norm_num)
    (by norm_num) (by norm_num) (by norm_num) (by norm_num)

/-- C2 (amended): the binomial kernel performs no check on the CRR
risk-neutral probability: `americanCallPrice` and `americanPutPrice` never
raise an error, for any inputs whatsoever, including those with
`p ∉ [0, 1]`. -/
theorem c2_binomial_never_raises (S K r T sigma : ℝ) (steps : ℤ) :
    (BinomialTree.americanCallPrice S K r T sigma steps).isOk = true ∧
    (BinomialTree.americanPutPrice S K r T sigma steps).isOk = true :=
  ⟨BinomialTree.americanCallPrice_isOk S K r T sigma steps,
    BinomialTree.americanPutPrice_isOk S K r T sigma steps⟩

/-- C2 counterexample: at `S = K = 100`, `r = 1`, `T = 1`, `sigma = 0.3`,
`steps = 1` the CRR probability `p = (e^{r dt} - d)/(u - d)` exceeds `1`,
yet both pricing kernels return a price instead of raising a numerical
error. -/
theorem c2_counterexample :
    1 < BinomialTree.crrProbability 1 1 (3/10) 1 ∧
    (BinomialTree.americanCallPrice 100 100 1 1 (3/10) 1).isOk = true ∧
    (BinomialTree.americanPutPrice 100 100 1 1 (3/10) 1).isOk = true := by
  refine ⟨?_, BinomialTree.americanCallPrice_isOk 100 100 1 1 (3/10) 1,
    BinomialTree.americanPutPrice_isOk 100 100 1 1 (3/10) 1⟩
  unfold BinomialTree.crrProbability BinomialTree.effSteps
  rw [if_neg (by norm_num : ¬((1:ℤ) ≤ 0))]
  norm_num [Real.sqrt_one]
  have hu : (1:ℝ) < Real.exp (3/10) := by
    rw [show (1:ℝ) = Real.exp 0 from (Real.exp_zero).symm]
    exact Real.exp_lt_exp.mpr (by norm_num)
  have hdlt : (Real.exp (3/10))⁻¹ < 1 := by
    rw [← one_div, div_lt_one (Real.exp_pos _)]
    exact hu
  have hud : 0 < Real.exp (3/10) - (Real.exp (3/10))⁻¹ := by linarith
  rw [lt_div_iff₀ hud]
  have he : Real.exp (3/10) < Real.exp 1 := Real.exp_lt_exp.mpr (by norm_num)
  linarith

/-- C10: a non-positive `steps` argument is silently replaced by the default
of `100` steps; no error is raised, and for `T > 0`, `sigma > 0` the price
equals exactly the price computed with `steps = 100`. -/
theorem c10_nonpos_steps_default (S K r T sigma : ℝ) (steps : ℤ)
    (hsteps : steps ≤ 0) :
    (BinomialTree.americanCallPrice S K r T sigma steps).isOk = true ∧
    (BinomialTree.americanPutPrice S K r T sigma steps).isOk = true ∧
    (0 < T → 0 < sigma →
      BinomialTree.americanCallPrice S K r T sigma steps =
        BinomialTree.americanCallPrice S K r T sigma 100 ∧
      BinomialTree.americanPutPrice S K r T sigma steps =
        BinomialTree.americanPutPrice S K r T sigma 100) := by
  have heff : BinomialTree.effSteps steps = BinomialTree.effSteps 100 := by
    rw [BinomialTree.effSteps_of_nonpos steps hsteps]
    rfl
  refine ⟨BinomialTree.americanCallPrice_isOk S K r T sigma steps,
    BinomialTree.americanPutPrice_isOk S K r T sigma steps, fun _ _ => ⟨?_, ?_⟩⟩
  · unfold BinomialTree.americanCallPrice
    rw [heff]
  · unfold BinomialTree.americanPutPrice
    rw [heff]

/-- C10 witness: `steps = 0` with `S = K = 100`, `r = 0`, `T = 1`,
`sigma = 1`. -/
theorem c10_nonpos_steps_default_witness :
    (BinomialTree.americanCallPrice 100 100 0 1 1 0).isOk = true ∧
    (BinomialTree.americanPutPrice 100 100 0 1 1 0).isOk = true ∧
    ((0:ℝ) < 1 → (0:ℝ) < 1 →
      BinomialTree.americanCallPrice 100 100 0 1 1 0 =
        BinomialTree.americanCallPrice 100 100 0 1 1 100 ∧
      BinomialTree.americanPutPrice 100 100 0 1 1 0 =
        BinomialTree.americanPutPrice 100 100 0 1 1 100) :=
  c10_nonpos_steps_default 100 100 0 1 1 0 (by norm_num)

/-- `OptionType` from `Instrument.h`. -/
inductive OptionType where
  | Call
  | Put
deriving DecidableEq

/-- `MarketData` from `MarketData.h`: per-asset market snapshot. -/
structure MarketData where
  asset_id : String
  spot_price : ℝ
  risk_free_rate : ℝ
  volatility : ℝ
  dividend_yield : ℝ

/-- `EuropeanOption` as implemented in `Instrument.cpp` (Black-Scholes
pricing only). -/
structure EuropeanOption where
  option_type : OptionType
  strike_price : ℝ
  time_to_expiry_years : ℝ
  underlying_asset_id : String

/-- `AmericanOption` from `Instrument.cpp` (binomial-tree pricing). -/
structure AmericanOption where
  option_type : OptionType
  strike_price : ℝ
  time_to_expiry_years : ℝ
  underlying_asset_id : String
  binomial_steps : ℤ

/-- The polymorphic `Instrument` base class of `Instrument.h`, as a tagged
sum of its two concrete variants. -/
inductive Instrument where
  | european (opt : EuropeanOption)
  | american (opt : AmericanOption)

/-- `Instrument::getAssetId` (`Instrument.cpp` lines 40-42 and 87-89). -/
def Instrument.getAssetId : Instrument → String
  | .european opt => opt.underlying_asset_id
  | .american opt => opt.underlying_asset_id

/-- `Instrument::price` dispatch (`Instrument.cpp` lines 8-14 and 51-61). -/
noncomputable def Instrument.price (inst : Instrument) (md : MarketData) :
    Except Err ℝ :=
  match inst with
  | .european opt =>
    match opt.option_type with
    | .Call => BlackScholes.callPrice md.spot_price opt.strike_price
        md.risk_free_rate opt.time_to_expiry_years md.volatility
    | .Put => BlackScholes.putPrice md.spot_price opt.strike_price
        md.risk_free_rate opt.time_to_expiry_years md.volatility
  | .american opt =>
    if opt.option_type = .Call then
      BinomialTree.americanCallPrice md.spot_price opt.strike_price
        md.risk_free_rate opt.time_to_expiry_years md.volatility opt.binomial_steps
    else
      BinomialTree.americanPutPrice md.spot_price opt.strike_price
        md.risk_free_rate opt.time_to_expiry_years md.volatility opt.binomial_steps

/-- `Instrument::delta` dispatch (`Instrument.cpp` lines 16-22 and 63-67);
the American finite-difference bump defaults to `0.01`. -/
noncomputable def Instrument.delta (inst : Instrument) (md : MarketData) :
    Except Err ℝ :=
  match inst with
  | .european opt =>
    match opt.option_type with
    | .Call => BlackScholes.callDelta md.spot_price opt.strike_price
        md.risk_free_rate opt.time_to_expiry_years md.volatility
    | .Put => BlackScholes.putDelta md.spot_price opt.strike_price
        md.risk_free_rate opt.time_to_expiry_years md.volatility
  | .american opt =>
    BinomialTree.americanDelta (opt.option_type = .Call) md.spot_price
      opt.strike_price md.risk_free_rate opt.time_to_expiry_years md.volatility
      opt.binomial_steps (1/100)

/-- `Instrument::gamma` dispatch (`Instrument.cpp` lines 24-26 and 69-73). -/
noncomputable def Instrument.gamma (inst : Instrument) (md : MarketData) :
    Except Err ℝ :=
  match inst with
  | .european opt =>
    BlackScholes.gamma md.spot_price opt.strike_price md.risk_free_rate
      opt.time_to_expiry_years md.volatility
  | .american opt =>
    BinomialTree.americanGamma (opt.option_type = .Call) md.spot_price
      opt.strike_price md.risk_free_rate opt.time_to_expiry_years md.volatility
      opt.binomial_steps (1/100)

/-- `Instrument::vega` dispatch (`Instrument.cpp` lines 28-30 and 75-79). -/
noncomputable def Instrument.vega (inst : Instrument) (md : MarketData) :
    Except Err ℝ :=
  match inst with
  | .european opt =>
    BlackScholes.vega md.spot_price opt.strike_price md.risk_free_rate
      opt.time_to_expiry_years md.volatility
  | .american opt =>
    BinomialTree.americanVega (opt.option_type = .Call) md.spot_price
      opt.strike_price md.risk_free_rate opt.time_to_expiry_years md.volatility
      opt.binomial_steps (1/100)

/-- `Instrument::theta` dispatch (`Instrument.cpp` lines 32-38 and 81-85);
the American time bump defaults to `1/365`. -/
noncomputable def Instrument.theta (inst : Instrument) (md : MarketData) :
    Except Err ℝ :=
  match inst with
  | .european opt =>
    match opt.option_type with
    | .Call => BlackScholes.callTheta md.spot_price opt.strike_price
        md.risk_free_rate opt.time_to_expiry_years md.volatility
    | .Put => BlackScholes.putTheta md.spot_price opt.strike_price
        md.risk_free_rate opt.time_to_expiry_years md.volatility
  | .american opt =>
    BinomialTree.americanTheta (opt.option_type = .Call) md.spot_price
      opt.strike_price md.risk_free_rate opt.time_to_expiry_years md.volatility
      opt.binomial_steps (1/365)

/-- A portfolio is the insertion-ordered list of
`(owned instrument, signed quantity)` pairs held in
`Portfolio::instruments` (`Portfolio.h`).  Null `unique_ptr` entries are not
representable in this embedding (`addInstrument` rejects them at
`Portfolio.cpp` line 8). -/
abbrev Portfolio := List (Instrument × ℤ)

/-- `INT_MAX` for the 32-bit `int` quantities of the C++ code. -/
def INT_MAX : ℤ := 2147483647

/-- `INT_MIN` for the 32-bit `int` quantities of the C++ code. -/
def INT_MIN : ℤ := -2147483648

/-- The accumulation loop of `Portfolio::getTotalQuantityForAsset`
(`Portfolio.cpp` lines 85-97), including the pre-add signed-overflow check
of lines 90-92. -/
def Portfolio.totalQuantityLoop (asset_id : String) :
    List (Instrument × ℤ) → ℤ → Except Err ℤ
  | [], total => .ok total
  | (instr, qty) :: rest, total =>
    if instr.getAssetId = asset_id then
      if (qty > 0 ∧ total > INT_MAX - qty) ∨ (qty < 0 ∧ total < INT_MIN - qty) then
        .error (.overflowError ("Quantity overflow for asset " ++ asset_id))
      else Portfolio.totalQuantityLoop asset_id rest (total + qty)
    else Portfolio.totalQuantityLoop asset_id rest total

/-- `Portfolio::getTotalQuantityForAsset` (`Portfolio.cpp` lines 78-99). -/
def Portfolio.getTotalQuantityForAsset (p : Portfolio) (asset_id : String) :
    Except Err ℤ :=
  if asset_id = "" then .error (.invalidArgument "Asset ID cannot be empty")
  else Portfolio.totalQuantityLoop asset_id p 0

/-- The mathematical signed sum of the quantities of the positions whose
instrument carries the given asset id. -/
def Portfolio.assetQuantitySum (asset_id : String) :
    List (Instrument × ℤ) → ℤ
  | [] => 0
  | (instr, qty) :: rest =>
    if instr.getAssetId = asset_id then
      qty + Portfolio.assetQuantitySum asset_id rest
    else Portfolio.assetQuantitySum asset_id rest

theorem totalQuantityLoop_ok_val (asset_id : String) :
    ∀ (l : List (Instrument × ℤ)) (total v : ℤ),
      Portfolio.totalQuantityLoop asset_id l total = .ok v →
      v = total + Portfolio.assetQuantitySum asset_id l := by
  intro l
  induction l with
  | nil =>
    intro total v h
    simp only [Portfolio.totalQuantityLoop] at h
    cases h
    simp [Portfolio.assetQuantitySum]
  | cons head rest ih =>
    intro total v h
    obtain ⟨instr, qty⟩ := head
    simp only [Portfolio.totalQuantityLoop] at h
    by_cases hm : instr.getAssetId = asset_id
    · rw [if_pos hm] at h
      by_cases hov : (qty > 0 ∧ total > INT_MAX - qty) ∨
          (qty < 0 ∧ total < INT_MIN - qty)
      · rw [if_pos hov] at h
        cases h
      · rw [if_neg hov] at h
        have := ih (total + qty) v h
        simp only [Portfolio.assetQuantitySum, if_pos hm]
        omega
    · rw [if_neg hm] at h
      have := ih total v h
      simp only [Portfolio.assetQuantitySum, if_neg hm]
      omega

theorem totalQuantityLoop_overflow (asset_id : String) :
    ∀ (l : List (Instrument × ℤ)) (total : ℤ),
      INT_MIN ≤ total → total ≤ INT_MAX →
      (total + Portfolio.assetQuantitySum asset_id l < INT_MIN ∨
        INT_MAX < total + Portfolio.assetQuantitySum asset_id l) →
      (Portfolio.totalQuantityLoop asset_id l total).isOk = false := by
  intro l
  induction l with
  | nil =>
    intro total h1 h2 h3
    simp only [Portfolio.assetQuantitySum, add_zero] at h3
    rcases h3 with h3 | h3 <;> omega
  | cons head rest ih =>
    intro total h1 h2 h3
    obtain ⟨instr, qty⟩ := head
    simp only [Portfolio.totalQuantityLoop]
    by_cases hm : instr.getAssetId = asset_id
    · rw [if_pos hm]
      by_cases hov : (qty > 0 ∧ total > INT_MAX - qty) ∨
          (qty < 0 ∧ total < INT_MIN - qty)
      · rw [if_pos hov]
        rfl
      · rw [if_neg hov]
        simp only [Portfolio.assetQuantitySum, if_pos hm] at h3
        have hb1 : INT_MIN ≤ total + qty := by
          unfold INT_MIN INT_MAX at *
          omega
        have hb2 : total + qty ≤ INT_MAX := by
          unfold INT_MIN INT_MAX at *
          omega
        apply ih (total + qty) hb1 hb2
        omega
    · rw [if_neg hm]
      simp only [Portfolio.assetQuantitySum, if_neg hm] at h3
      exact ih total h1 h2 h3

/-- C7: `getTotalQuantityForAsset` returns the signed sum of the quantities
of the positions matching the asset id, fails with an error whenever that
sum overflows the signed 32-bit integer domain, and rejects an empty asset
id. -/
theorem c7_total_quantity_for_asset (p : Portfolio) (asset_id : String)
    (h : asset_id ≠ "") :
    (∀ v, Portfolio.getTotalQuantityForAsset p asset_id = .ok v →
      v = Portfolio.assetQuantitySum asset_id p) ∧
    ((Portfolio.assetQuantitySum asset_id p < INT_MIN ∨
        INT_MAX < Portfolio.assetQuantitySum asset_id p) →
      (Portfolio.getTotalQuantityForAsset p asset_id).isOk = false) ∧
    (Portfolio.getTotalQuantityForAsset p "").isOk = false := by
  refine ⟨?_, ?_, ?_⟩
  · intro v hv
    unfold Portfolio.getTotalQuantityForAsset at hv
    rw [if_neg h] at hv
    have := totalQuantityLoop_ok_val asset_id p 0 v hv
    omega
  · intro hover
    unfold Portfolio.getTotalQuantityForAsset
    rw [if_neg h]
    apply totalQuantityLoop_overflow asset_id p 0 (by norm_num [INT_MIN])
      (by norm_num [INT_MAX])
    omega
  · unfold Portfolio.getTotalQuantityForAsset
    rw [if_pos rfl]
    rfl

/-- C7 witness: a three-position book with asset ids `A`, `B`, `A` and
quantities `3`, `5`, `4` sums to `7` for asset `A`. -/
theorem c7_total_quantity_for_asset_witness :
    ("A" : String) ≠ "" ∧
    (7:ℤ) = Portfolio.assetQuantitySum "A"
      [(Instrument.european ⟨OptionType.Call, 1, 1, "A"⟩, 3),
       (Instrument.european ⟨OptionType.Put, 1, 1, "B"⟩, 5),
       (Instrument.american ⟨OptionType.Call, 1, 1, "A", 100⟩, 4)] :=
  ⟨by decide,
    (c7_total_quantity_for_asset
      [(Instrument.european ⟨OptionType.Call, 1, 1, "A"⟩, 3),
       (Instrument.european ⟨OptionType.Put, 1, 1, "B"⟩, 5),
       (Instrument.american ⟨OptionType.Call, 1, 1, "A", 100⟩, 4)]
      "A" (by decide)).1 7 (by rfl)⟩

/-- Market-data map keyed by asset id (`std::map<std::string, MarketData>`);
`none` models a missing key. -/
abbrev MarketDataMap := String → Option MarketData

/-- `RiskMetrics` from `RiskEngine.h` (library header), default-zero. -/
structure RiskMetrics where
  var_95 : ℝ
  var_99 : ℝ
  es_95 : ℝ
  es_99 : ℝ

/-- `PortfolioRiskResult` from `RiskEngine.h` (library header): the nine
aggregated metrics. -/
structure PortfolioRiskResult where
  total_pv : ℝ
  total_delta : ℝ
  total_gamma : ℝ
  total_vega : ℝ
  total_theta : ℝ
  value_at_risk_95 : ℝ
  value_at_risk_99 : ℝ
  expected_shortfall_95 : ℝ
  expected_shortfall_99 : ℝ

/-- The configuration state of a `RiskEngine` instance
(`RiskEngine.h` private members). -/
structure RiskEngine where
  var_simulations : ℤ
  time_horizon_days : ℝ
  random_seed : ℕ
  use_fixed_seed : Bool

/-- `RiskEngine::setRandomSeed` (`RiskEngine.cpp` lines 53-56): stores the
seed and enables fixed-seed mode. -/
def RiskEngine.setRandomSeed (e : RiskEngine) (seed : ℕ) : RiskEngine :=
  { e with random_seed := seed, use_fixed_seed := true }

/-- `RiskEngine::setUseFixedSeed` (`RiskEngine.cpp` lines 58-60). -/
def RiskEngine.setUseFixedSeed (e : RiskEngine) (use_fixed : Bool) : RiskEngine :=
  { e with use_fixed_seed := use_fixed }

/-- `RiskEngine::validateParameters` (`RiskEngine.cpp` lines 62-69). -/
noncomputable def RiskEngine.validateParameters (e : RiskEngine) : Except Err Unit :=
  if e.var_simulations ≤ 0 ∨ e.var_simulations > 1000000 then
    .error (.invalidArgument "Invalid VaR simulations parameter")
  else if e.time_horizon_days ≤ 0 ∨ e.time_horizon_days > 252 then
    .error (.invalidArgument "Invalid time horizon parameter")
  else .ok ()

/-- `RiskEngine::validateMarketData` (`RiskEngine.cpp` lines 71-115): walk
the portfolio, failing fast on an empty asset id, a missing market-data
entry, a non-positive spot, or a negative volatility.  The null-instrument
and NaN/infinity checks are not representable in this embedding. -/
noncomputable def RiskEngine.validateMarketData (m : MarketDataMap) :
    Portfolio → Except Err Unit
  | [] => .ok ()
  | (instr, _) :: rest =>
    let asset_id := instr.getAssetId
    if asset_id = "" then .error (.runtimeError "Instrument has empty asset ID")
    else
      match m asset_id with
      | none => .error (.runtimeError ("Missing market data for asset: " ++ asset_id))
      | some md =>
        if md.spot_price ≤ 0 then
          .error (.invalidArgument ("Spot price must be positive for " ++ asset_id))
        else if md.volatility < 0 then
          .error (.invalidArgument ("Volatility cannot be negative for " ++ asset_id))
        else RiskEngine.validateMarketData m rest

/-- `RiskEngine::calculateSingleInstrumentMetric` (`RiskEngine.cpp` lines
117-159): dispatch on the metric name, rewrap any pricing error as a
runtime error, and weight by the signed quantity. -/
noncomputable def RiskEngine.calculateSingleInstrumentMetric
    (instrument : Instrument) (quantity : ℤ) (md : MarketData)
    (metric_name : String) : Except Err ℝ :=
  let raw : Except Err ℝ :=
    if metric_name = "price" then instrument.price md
    else if metric_name = "delta" then instrument.delta md
    else if metric_name = "gamma" then instrument.gamma md
    else if metric_name = "vega" then instrument.vega md
    else if metric_name = "theta" then instrument.theta md
    else .ok 0
  match raw with
  | .error _ =>
    .error (.runtimeError ("Failed to calculate " ++ metric_name ++ " for " ++
      instrument.getAssetId))
  | .ok metric_value => .ok (metric_value * (quantity : ℝ))

/-- The five running totals accumulated by the aggregation loop of
`calculatePortfolioRisk` (`RiskEngine.cpp` lines 178-187). -/
structure EngineTotals where
  pv : ℝ
  delta : ℝ
  gamma : ℝ
  vega : ℝ
  theta : ℝ

/-- The aggregation loop of `calculatePortfolioRisk` (`RiskEngine.cpp`
lines 178-187); `std::map::at` on a missing key raises `out_of_range`. -/
noncomputable def RiskEngine.aggregatePositions (m : MarketDataMap) :
    Portfolio → EngineTotals → Except Err EngineTotals
  | [], acc => .ok acc
  | (instr, qty) :: rest, acc =>
    match m instr.getAssetId with
    | none => .error (.outOfRange "map::at")
    | some md => do
      let pv ← RiskEngine.calculateSingleInstrumentMetric instr qty md "price"
      let de ← RiskEngine.calculateSingleInstrumentMetric instr qty md "delta"
      let ga ← RiskEngine.calculateSingleInstrumentMetric instr qty md "gamma"
      let ve ← RiskEngine.calculateSingleInstrumentMetric instr qty md "vega"
      let th ← RiskEngine.calculateSingleInstrumentMetric instr qty md "theta"
      RiskEngine.aggregatePositions m rest
        ⟨acc.pv + pv, acc.delta + de, acc.gamma + ga, acc.vega + ve, acc.theta + th⟩

/-- The initial-portfolio-value loop of `calculateRiskMetrics`
(`RiskEngine.cpp` lines 213-225). -/
noncomputable def RiskEngine.initialValue (m : MarketDataMap) :
    Portfolio → ℝ → Except Err ℝ
  | [], acc => .ok acc
  | (instr, qty) :: rest, acc =>
    match m instr.getAssetId with
    | none => .error (.outOfRange "map::at")
    | some md => do
      let price ← instr.price md
      RiskEngine.initialValue m rest (acc + price * (qty : ℝ))

/-- The inner per-position loop of one Monte-Carlo simulation
(`RiskEngine.cpp` lines 250-273).  The draw counter `idx` is threaded
through so that exactly one normal draw is consumed per position, in
portfolio order. -/
noncomputable def RiskEngine.simulateOne (draws : ℕ → ℝ) (m : MarketDataMap)
    (dt sqrt_dt : ℝ) : Portfolio → ℕ → ℝ → Except Err (ℕ × ℝ)
  | [], idx, acc => .ok (idx, acc)
  | (instr, qty) :: rest, idx, acc =>
    match m instr.getAssetId with
    | none => .error (.outOfRange "map::at")
    | some md =>
      let random_shock := draws idx
      let drift := (md.risk_free_rate - 0.5 * md.volatility * md.volatility) * dt
      let diffusion := md.volatility * sqrt_dt * random_shock
      let simulated_spot := md.spot_price * Real.exp (drift + diffusion)
      if simulated_spot ≤ 0 then
        .error (.runtimeError "Invalid simulated spot price in risk metrics calculation")
      else do
        let simulated_price ← instr.price { md with spot_price := simulated_spot }
        RiskEngine.simulateOne draws m dt sqrt_dt rest (idx + 1)
          (acc + simulated_price * (qty : ℝ))

/-- The outer simulation loop of `calculateRiskMetrics` (`RiskEngine.cpp`
lines 247-280), appending one P&L value per simulation. -/
noncomputable def RiskEngine.runSims (draws : ℕ → ℝ) (m : MarketDataMap)
    (p : Portfolio) (dt sqrt_dt v0 : ℝ) :
    ℕ → ℕ → List ℝ → Except Err (ℕ × List ℝ)
  | 0, idx, acc => .ok (idx, acc)
  | count + 1, idx, acc => do
    let r ← RiskEngine.simulateOne draws m dt sqrt_dt p idx 0
    RiskEngine.runSims draws m p dt sqrt_dt v0 count r.1 (acc ++ [r.2 - v0])

/-- The statistics stage of `calculateRiskMetrics` (`RiskEngine.cpp` lines
282-326): sort the P&L distribution ascending, read the VaR quantiles at
the truncated indices `(1 - c) * N`, and average the tail for the expected
shortfalls.  `static_cast<int>` truncation coincides with `Int.floor` on
the non-negative values arising here. -/
noncomputable def RiskEngine.metricsFromPnl (n : ℤ) (pnl : List ℝ) :
    Except Err RiskMetrics :=
  if pnl.isEmpty then
    .error (.runtimeError "Risk metrics calculation produced no results")
  else
    let sorted := List.insertionSort (fun a b : ℝ => a ≤ b) pnl
    let index_95 : ℤ := ⌊(1 - 0.95) * (n : ℝ)⌋
    if index_95 < 0 ∨ index_95 ≥ n then
      .error (.runtimeError "Invalid VaR 95% index calculation")
    else
      let var_95 := -(sorted.getD index_95.toNat 0)
      let index_99 : ℤ := ⌊(1 - 0.99) * (n : ℝ)⌋
      if index_99 < 0 ∨ index_99 ≥ n then
        .error (.runtimeError "Invalid VaR 99% index calculation")
      else
        let var_99 := -(sorted.getD index_99.toNat 0)
        let sum_95 := (sorted.take (index_95.toNat + 1)).sum
        let count_95 : ℤ := index_95 + 1
        let es_95 := if 0 < count_95 then -sum_95 / (count_95 : ℝ) else 0
        let sum_99 := (sorted.take (index_99.toNat + 1)).sum
        let count_99 : ℤ := index_99 + 1
        let es_99 := if 0 < count_99 then -sum_99 / (count_99 : ℝ) else 0
        .ok ⟨var_95, var_99, es_95, es_99⟩

/-- `RiskEngine::calculateRiskMetrics` (`RiskEngine.cpp` lines 206-327).
`seedStream seed` is the normal draw sequence produced by the
Mersenne-Twister generator seeded with `seed`; `entropy` models the
`std::random_device` value used only when `use_fixed_seed` is false. -/
noncomputable def RiskEngine.calculateRiskMetrics (seedStream : ℕ → ℕ → ℝ)
    (e : RiskEngine) (entropy : ℕ) (p : Portfolio) (m : MarketDataMap) :
    Except Err RiskMetrics := do
  let initial_portfolio_value ← RiskEngine.initialValue m p 0
  if |initial_portfolio_value| < 1e-10 then .ok ⟨0, 0, 0, 0⟩
  else do
    let res ← RiskEngine.runSims
      (seedStream (if e.use_fixed_seed then e.random_seed else entropy)) m p
      (e.time_horizon_days / 252) (Real.sqrt (e.time_horizon_days / 252))
      initial_portfolio_value e.var_simulations.toNat 0 []
    RiskEngine.metricsFromPnl e.var_simulations res.2

/-- `RiskEngine::calculatePortfolioRisk` (`RiskEngine.cpp` lines 161-204). -/
noncomputable def RiskEngine.calculatePortfolioRisk (seedStream : ℕ → ℕ → ℝ)
    (e : RiskEngine) (entropy : ℕ) (p : Portfolio) (m : MarketDataMap) :
    Except Err PortfolioRiskResult := do
  RiskEngine.validateParameters e
  if p.isEmpty then .ok ⟨0, 0, 0, 0, 0, 0, 0, 0, 0⟩
  else do
    RiskEngine.validateMarketData m p
    let totals ← RiskEngine.aggregatePositions m p ⟨0, 0, 0, 0, 0⟩
    match RiskEngine.calculateRiskMetrics seedStream e entropy p m with
    | .error _ => Except.error (Err.runtimeError "Risk metrics calculation failed")
    | .ok metrics =>
      Except.ok ⟨totals.pv, totals.delta, totals.gamma, totals.vega, totals.theta,
        metrics.var_95, metrics.var_99, metrics.es_95, metrics.es_99⟩

theorem calculateRiskMetrics_entropy_irrelevant (seedStream : ℕ → ℕ → ℝ)
    (e : RiskEngine) (h : e.use_fixed_seed = true) (entropy1 entropy2 : ℕ)
    (p : Portfolio) (m : MarketDataMap) :
    RiskEngine.calculateRiskMetrics seedStream e entropy1 p m =
      RiskEngine.calculateRiskMetrics seedStream e entropy2 p m := by
  unfold RiskEngine.calculateRiskMetrics
  congr 1
  funext v0
  simp only [h, if_true]

/-- C1: fixed-seed determinism.  With `use_fixed_seed = true` the result of
`calculatePortfolioRisk` does not depend on the nondeterministic
`std::random_device` entropy: two runs with the same seed, configuration,
portfolio (same contents in the same insertion order) and market data
produce identical `PortfolioRiskResult` values — all nine fields equal.
In the embedding the generator is consumed through `simulateOne` /
`runSims`, one draw per position per simulation in portfolio order. -/
theorem c1_fixed_seed_determinism (seedStream : ℕ → ℕ → ℝ) (e : RiskEngine)
    (entropy1 entropy2 : ℕ) (p : Portfolio) (m : MarketDataMap)
    (h : e.use_fixed_seed = true) :
    RiskEngine.calculatePortfolioRisk seedStream e entropy1 p m =
      RiskEngine.calculatePortfolioRisk seedStream e entropy2 p m := by
  unfold RiskEngine.calculatePortfolioRisk
  rw [calculateRiskMetrics_entropy_irrelevant seedStream e h entropy1 entropy2 p m]

/-- C1 witness: two runs with different entropy values but the same fixed
seed agree. -/
theorem c1_fixed_seed_determinism_witness :
    RiskEngine.calculatePortfolioRisk (fun _ _ => 0) ⟨1, 1, 42, true⟩ 0 []
      (fun _ => none) =
    RiskEngine.calculatePortfolioRisk (fun _ _ => 0) ⟨1, 1, 42, true⟩ 1 []
      (fun _ => none) :=
  c1_fixed_seed_determinism (fun _ _ => 0) ⟨1, 1, 42, true⟩ 0 1 []
    (fun _ => none) rfl

/-- C9: `setRandomSeed` stores the seed and, as a side effect, enables
fixed-seed mode; `var_simulations` and `time_horizon_days` are unchanged,
and a separate `setUseFixedSeed false` call is what returns the engine to
nondeterministic seeding. -/
theorem c9_set_random_seed_effects (e : RiskEngine) (seed : ℕ) :
    (e.setRandomSeed seed).random_seed = seed ∧
    (e.setRandomSeed seed).use_fixed_seed = true ∧
    (e.setRandomSeed seed).var_simulations = e.var_simulations ∧
    (e.setRandomSeed seed).time_horizon_days = e.time_horizon_days ∧
    ((e.setRandomSeed seed).setUseFixedSeed false).use_fixed_seed = false ∧
    ((e.setRandomSeed seed).setUseFixedSeed false).random_seed = seed :=
  ⟨rfl, rfl, rfl, rfl, rfl, rfl⟩

theorem sorted_getD_mono (l : List ℝ) (hs : l.Sorted (fun a b : ℝ => a ≤ b))
    {i j : ℕ} (hij : i ≤ j) (hj : j < l.length) : l.getD i 0 ≤ l.getD j 0 := by
  have hi : i < l.length := lt_of_le_of_lt hij hj
  rw [List.getD_eq_get l 0 hi, List.getD_eq_get l 0 hj]
  exact hs.rel_get_of_le (by simpa using hij)

theorem take_sum_eq_range_sum (l : List ℝ) :
    ∀ m, m ≤ l.length → (l.take m).sum = ∑ j in Finset.range m, l.getD j 0 := by
  intro m
  induction m with
  | zero =>
    intro _
    simp
  | succ m ih =>
    intro hm
    have hmlt : m < l.length := Nat.lt_of_succ_le hm
    rw [List.sum_take_succ l m hmlt, ih (le_of_lt hmlt), Finset.sum_range_succ,
      List.getD_eq_getElem l 0 hmlt]

theorem range_sum_le_mul_getD (l : List ℝ)
    (hs : l.Sorted (fun a b : ℝ => a ≤ b)) (k : ℕ) (hk : k < l.length) :
    ∑ j in Finset.range (k + 1), l.getD j 0 ≤ ((k : ℝ) + 1) * l.getD k 0 := by
  have h : ∀ j ∈ Finset.range (k + 1), l.getD j 0 ≤ l.getD k 0 := fun j hj =>
    sorted_getD_mono l hs (Nat.lt_succ_iff.mp (Finset.mem_range.mp hj)) hk
  calc ∑ j in Finset.range (k + 1), l.getD j 0
      ≤ ∑ _j in Finset.range (k + 1), l.getD k 0 := Finset.sum_le_sum h
    _ = ((k : ℝ) + 1) * l.getD k 0 := by
        rw [Finset.sum_const, Finset.card_range, nsmul_eq_mul]
        push_cast
        ring

theorem running_avg_step (l : List ℝ)
    (hs : l.Sorted (fun a b : ℝ => a ≤ b)) (m : ℕ) (hm : m + 1 < l.length) :
    (∑ j in Finset.range (m + 1), l.getD j 0) / ((m : ℝ) + 1) ≤
      (∑ j in Finset.range (m + 2), l.getD j 0) / ((m : ℝ) + 2) := by
  have hSx : ∑ j in Finset.range (m + 2), l.getD j 0 =
      (∑ j in Finset.range (m + 1), l.getD j 0) + l.getD (m + 1) 0 :=
    Finset.sum_range_succ _ _
  have hSb : ∑ j in Finset.range (m + 1), l.getD j 0 ≤
      ((m : ℝ) + 1) * l.getD (m + 1) 0 := by
    have h : ∀ j ∈ Finset.range (m + 1), l.getD j 0 ≤ l.getD (m + 1) 0 := fun j hj =>
      sorted_getD_mono l hs (Nat.le_of_lt (Finset.mem_range.mp hj)) hm
    calc ∑ j in Finset.range (m + 1), l.getD j 0
        ≤ ∑ _j in Finset.range (m + 1), l.getD (m + 1) 0 := Finset.sum_le_sum h
      _ = ((m : ℝ) + 1) * l.getD (m + 1) 0 := by
          rw [Finset.sum_const, Finset.card_range, nsmul_eq_mul]
          push_cast
          ring
  rw [hSx, div_le_div_iff (by positivity) (by positivity)]
  nlinarith [hSb]

theorem running_avg_mono (l : List ℝ)
    (hs : l.Sorted (fun a b : ℝ => a ≤ b)) (a b : ℕ) (hab : a ≤ b)
    (hb : b < l.length) :
    (∑ j in Finset.range (a + 1), l.getD j 0) / ((a : ℝ) + 1) ≤
      (∑ j in Finset.range (b + 1), l.getD j 0) / ((b : ℝ) + 1) := by
  revert hb
  induction b, hab using Nat.le_induction with
  | base =>
    intro _
    exact le_rfl
  | succ b hab ih =>
    intro hb
    have hb' : b < l.length := by omega
    refine le_trans (ih hb') ?_
    have hstep := running_avg_step l hs b hb
    push_cast at hstep ⊢
    ring_nf at hstep ⊢
    exact hstep

theorem metricsFromPnl_eq (n : ℤ) (pnl : List ℝ) (hn : 1 ≤ n)
    (hlen : pnl.length = n.toNat) :
    RiskEngine.metricsFromPnl n pnl = .ok
      ⟨-((List.insertionSort (fun a b : ℝ => a ≤ b) pnl).getD
          (⌊(1 - 0.95) * (n : ℝ)⌋).toNat 0),
        -((List.insertionSort (fun a b : ℝ => a ≤ b) pnl).getD
          (⌊(1 - 0.99) * (n : ℝ)⌋).toNat 0),
        -(1 / ((⌊(1 - 0.95) * (n : ℝ)⌋).toNat + 1 : ℝ)) *
          ∑ j in Finset.range ((⌊(1 - 0.95) * (n : ℝ)⌋).toNat + 1),
            (List.insertionSort (fun a b : ℝ => a ≤ b) pnl).getD j 0,
        -(1 / ((⌊(1 - 0.99) * (n : ℝ)⌋).toNat + 1 : ℝ)) *
          ∑ j in Finset.range ((⌊(1 - 0.99) * (n : ℝ)⌋).toNat + 1),
            (List.insertionSort (fun a b : ℝ => a ≤ b) pnl).getD j 0⟩ := by
  have hn' : (1:ℝ) ≤ (n:ℝ) := by exact_mod_cast hn
  have hne : pnl.isEmpty = false := by
    cases pnl with
    | nil =>
      exfalso
      simp only [List.length_nil] at hlen
      omega
    | cons a l => rfl
  have h95nn : (0:ℤ) ≤ ⌊(1 - 0.95) * (n : ℝ)⌋ :=
    Int.floor_nonneg.mpr (by nlinarith)
  have h95lt : ⌊(1 - 0.95) * (n : ℝ)⌋ < n := Int.floor_lt.mpr (by nlinarith)
  have h99nn : (0:ℤ) ≤ ⌊(1 - 0.99) * (n : ℝ)⌋ :=
    Int.floor_nonneg.mpr (by nlinarith)
  have h99lt : ⌊(1 - 0.99) * (n : ℝ)⌋ < n := Int.floor_lt.mpr (by nlinarith)
  have hslen : (List.insertionSort (fun a b : ℝ => a ≤ b) pnl).length = n.toNat := by
    rw [List.length_insertionSort]
    exact hlen
  have h95len : (⌊(1 - 0.95) * (n : ℝ)⌋).toNat + 1 ≤
      (List.insertionSort (fun a b : ℝ => a ≤ b) pnl).length := by
    rw [hslen]
    omega
  have h99len : (⌊(1 - 0.99) * (n : ℝ)⌋).toNat + 1 ≤
      (List.insertionSort (fun a b : ℝ => a ≤ b) pnl).length := by
    rw [hslen]
    omega
  simp only [RiskEngine.metricsFromPnl, hne, Bool.false_eq_true, if_false]
  rw [if_neg (not_or.mpr ⟨not_lt.mpr h95nn, not_le.mpr h95lt⟩)]
  rw [if_neg (not_or.mpr ⟨not_lt.mpr h99nn, not_le.mpr h99lt⟩)]
  rw [if_pos (Int.lt_add_one_iff.mpr h95nn), if_pos (Int.lt_add_one_iff.mpr h99nn)]
  have hc95 : ((⌊(1 - 0.95) * (n : ℝ)⌋.toNat : ℕ) : ℝ) =
      ((⌊(1 - 0.95) * (n : ℝ)⌋ : ℤ) : ℝ) := by
    rw [← Int.cast_natCast, Int.toNat_of_nonneg h95nn]
  have hc99 : ((⌊(1 - 0.99) * (n : ℝ)⌋.toNat : ℕ) : ℝ) =
      ((⌊(1 - 0.99) * (n : ℝ)⌋ : ℤ) : ℝ) := by
    rw [← Int.cast_natCast, Int.toNat_of_nonneg h99nn]
  refine congrArg Except.ok ?_
  congr 1
  · rw [take_sum_eq_range_sum _ _ h95len, hc95]
    push_cast
    ring
  · rw [take_sum_eq_range_sum _ _ h99len, hc99]
    push_cast
    ring

/-- C4: the statistics stage of the Monte-Carlo computation.  After sorting
the `N = var_simulations` P&L values ascending, for each confidence `c` in
`{0.95, 0.99}` the reported VaR is `-pnl[k]` with `k = ⌊(1 - c) * N⌋` and
the reported ES is `-(1/(k+1))` times the sum of `pnl[0] .. pnl[k]` of the
sorted distribution. -/
theorem c4_var_es_formulas (n : ℤ) (pnl : List ℝ) (hn : 1 ≤ n)
    (hlen : pnl.length = n.toNat) :
    RiskEngine.metricsFromPnl n pnl = .ok
      ⟨-((List.insertionSort (fun a b : ℝ => a ≤ b) pnl).getD
          (⌊(1 - 0.95) * (n : ℝ)⌋).toNat 0),
        -((List.insertionSort (fun a b : ℝ => a ≤ b) pnl).getD
          (⌊(1 - 0.99) * (n : ℝ)⌋).toNat 0),
        -(1 / ((⌊(1 - 0.95) * (n : ℝ)⌋).toNat + 1 : ℝ)) *
          ∑ j in Finset.range ((⌊(1 - 0.95) * (n : ℝ)⌋).toNat + 1),
            (List.insertionSort (fun a b : ℝ => a ≤ b) pnl).getD j 0,
        -(1 / ((⌊(1 - 0.99) * (n : ℝ)⌋).toNat + 1 : ℝ)) *
          ∑ j in Finset.range ((⌊(1 - 0.99) * (n : ℝ)⌋).toNat + 1),
            (List.insertionSort (fun a b : ℝ => a ≤ b) pnl).getD j 0⟩ :=
  metricsFromPnl_eq n pnl hn hlen

/-- C4 witness: one simulation with P&L `2` gives VaR and ES `-2` at both
confidence levels, matching the formulas at `k = 0`. -/
theorem c4_var_es_formulas_witness :
    RiskEngine.metricsFromPnl 1 [(2:ℝ)] = .ok
      ⟨-((List.insertionSort (fun a b : ℝ => a ≤ b) [(2:ℝ)]).getD
          (⌊(1 - 0.95) * ((1:ℤ) : ℝ)⌋).toNat 0),
        -((List.insertionSort (fun a b : ℝ => a ≤ b) [(2:ℝ)]).getD
          (⌊(1 - 0.99) * ((1:ℤ) : ℝ)⌋).toNat 0),
        -(1 / ((⌊(1 - 0.95) * ((1:ℤ) : ℝ)⌋).toNat + 1 : ℝ)) *
          ∑ j in Finset.range ((⌊(1 - 0.95) * ((1:ℤ) : ℝ)⌋).toNat + 1),
            (List.insertionSort (fun a b : ℝ => a ≤ b) [(2:ℝ)]).getD j 0,
        -(1 / ((⌊(1 - 0.99) * ((1:ℤ) : ℝ)⌋).toNat + 1 : ℝ)) *
          ∑ j in Finset.range ((⌊(1 - 0.99) * ((1:ℤ) : ℝ)⌋).toNat + 1),
            (List.insertionSort (fun a b : ℝ => a ≤ b) [(2:ℝ)]).getD j 0⟩ :=
  c4_var_es_formulas 1 [(2:ℝ)] (by norm_num) (by rfl)

theorem metricsFromPnl_ok_inequalities (n : ℤ) (pnl : List ℝ)
    (mets : RiskMetrics) (hlen : pnl.length = n.toNat)
    (h : RiskEngine.metricsFromPnl n pnl = .ok mets) :
    mets.var_95 ≤ mets.var_99 ∧ mets.var_95 ≤ mets.es_95 ∧
      mets.var_99 ≤ mets.es_99 ∧ mets.es_95 ≤ mets.es_99 := by
  by_cases hnil : pnl = []
  · subst hnil
    unfold RiskEngine.metricsFromPnl at h
    simp at h
  · have hn : 1 ≤ n := by
      have h1 : 1 ≤ pnl.length := by
        cases pnl with
        | nil => exact absurd rfl hnil
        | cons a l => exact Nat.succ_le_succ (Nat.zero_le _)
      omega
    have hn' : (1:ℝ) ≤ (n:ℝ) := by exact_mod_cast hn
    rw [metricsFromPnl_eq n pnl hn hlen] at h
    injection h with h
    subst h
    have hsor : (List.insertionSort (fun a b : ℝ => a ≤ b) pnl).Sorted
        (fun a b : ℝ => a ≤ b) := List.sorted_insertionSort _ pnl
    have hslen : (List.insertionSort (fun a b : ℝ => a ≤ b) pnl).length = n.toNat := by
      rw [List.length_insertionSort]
      exact hlen
    have h95nn : (0:ℤ) ≤ ⌊(1 - 0.95) * (n : ℝ)⌋ :=
      Int.floor_nonneg.mpr (by nlinarith)
    have h95lt : ⌊(1 - 0.95) * (n : ℝ)⌋ < n := Int.floor_lt.mpr (by nlinarith)
    have h99nn : (0:ℤ) ≤ ⌊(1 - 0.99) * (n : ℝ)⌋ :=
      Int.floor_nonneg.mpr (by nlinarith)
    have hfle : ⌊(1 - 0.99) * (n : ℝ)⌋ ≤ ⌊(1 - 0.95) * (n : ℝ)⌋ :=
      Int.floor_le_floor (by nlinarith)
    have hkle : (⌊(1 - 0.99) * (n : ℝ)⌋).toNat ≤ (⌊(1 - 0.95) * (n : ℝ)⌋).toNat := by
      omega
    have hk95lt : (⌊(1 - 0.95) * (n : ℝ)⌋).toNat <
        (List.insertionSort (fun a b : ℝ => a ≤ b) pnl).length := by
      rw [hslen]
      omega
    have hk99lt : (⌊(1 - 0.99) * (n : ℝ)⌋).toNat <
        (List.insertionSort (fun a b : ℝ => a ≤ b) pnl).length :=
      lt_of_le_of_lt hkle hk95lt
    have hg : (List.insertionSort (fun a b : ℝ => a ≤ b) pnl).getD
        (⌊(1 - 0.99) * (n : ℝ)⌋).toNat 0 ≤
        (List.insertionSort (fun a b : ℝ => a ≤ b) pnl).getD
        (⌊(1 - 0.95) * (n : ℝ)⌋).toNat 0 :=
      sorted_getD_mono _ hsor hkle hk95lt
    have hsum95 := range_sum_le_mul_getD _ hsor _ hk95lt
    have hsum99 := range_sum_le_mul_getD _ hsor _ hk99lt
    have havg := running_avg_mono _ hsor _ _ hkle hk95lt
    have hc95 : (0:ℝ) < ((⌊(1 - 0.95) * (n : ℝ)⌋).toNat : ℝ) + 1 := by positivity
    have hc99 : (0:ℝ) < ((⌊(1 - 0.99) * (n : ℝ)⌋).toNat : ℝ) + 1 := by positivity
    refine ⟨by simpa using neg_le_neg hg, ?_, ?_, ?_⟩
    · show _ ≤ -(1 / (((⌊(1 - 0.95) * (n : ℝ)⌋).toNat : ℝ) + 1)) * _
      have hdiv : (∑ j in Finset.range ((⌊(1 - 0.95) * (n : ℝ)⌋).toNat + 1),
          (List.insertionSort (fun a b : ℝ => a ≤ b) pnl).getD j 0) /
          (((⌊(1 - 0.95) * (n : ℝ)⌋).toNat : ℝ) + 1) ≤
          (List.insertionSort (fun a b : ℝ => a ≤ b) pnl).getD
            (⌊(1 - 0.95) * (n : ℝ)⌋).toNat 0 := by
        rw [div_le_iff hc95]
        push_cast at hsum95 ⊢
        linarith
      have hrw : -(1 / (((⌊(1 - 0.95) * (n : ℝ)⌋).toNat : ℝ) + 1)) *
          (∑ j in Finset.range ((⌊(1 - 0.95) * (n : ℝ)⌋).toNat + 1),
            (List.insertionSort (fun a b : ℝ => a ≤ b) pnl).getD j 0) =
          -((∑ j in Finset.range ((⌊(1 - 0.95) * (n : ℝ)⌋).toNat + 1),
            (List.insertionSort (fun a b : ℝ => a ≤ b) pnl).getD j 0) /
            (((⌊(1 - 0.95) * (n : ℝ)⌋).toNat : ℝ) + 1)) := by
        ring
      rw [hrw]
      exact neg_le_neg hdiv
    · show _ ≤ -(1 / (((⌊(1 - 0.99) * (n : ℝ)⌋).toNat : ℝ) + 1)) * _
      have hdiv : (∑ j in Finset.range ((⌊(1 - 0.99) * (n : ℝ)⌋).toNat + 1),
          (List.insertionSort (fun a b : ℝ => a ≤ b) pnl).getD j 0) /
          (((⌊(1 - 0.99) * (n : ℝ)⌋).toNat : ℝ) + 1) ≤
          (List.insertionSort (fun a b : ℝ => a ≤ b) pnl).getD
            (⌊(1 - 0.99) * (n : ℝ)⌋).toNat 0 := by
        rw [div_le_iff hc99]
        push_cast at hsum99 ⊢
        linarith
      have hrw : -(1 / (((⌊(1 - 0.99) * (n : ℝ)⌋).toNat : ℝ) + 1)) *
          (∑ j in Finset.range ((⌊(1 - 0.99) * (n : ℝ)⌋).toNat + 1),
            (List.insertionSort (fun a b : ℝ => a ≤ b) pnl).getD j 0) =
          -((∑ j in Finset.range ((⌊(1 - 0.99) * (n : ℝ)⌋).toNat + 1),
            (List.insertionSort (fun a b : ℝ => a ≤ b) pnl).getD j 0) /
            (((⌊(1 - 0.99) * (n : ℝ)⌋).toNat : ℝ) + 1)) := by
        ring
      rw [hrw]
      exact neg_le_neg hdiv
    · have h1 : -(1 / (((⌊(1 - 0.95) * (n : ℝ)⌋).toNat : ℝ) + 1)) *
          (∑ j in Finset.range ((⌊(1 - 0.95) * (n : ℝ)⌋).toNat + 1),
            (List.insertionSort (fun a b : ℝ => a ≤ b) pnl).getD j 0) =
          -((∑ j in Finset.range ((⌊(1 - 0.95) * (n : ℝ)⌋).toNat + 1),
            (List.insertionSort (fun a b : ℝ => a ≤ b) pnl).getD j 0) /
            (((⌊(1 - 0.95) * (n : ℝ)⌋).toNat : ℝ) + 1)) := by
        ring
      have h2 : -(1 / (((⌊(1 - 0.99) * (n : ℝ)⌋).toNat : ℝ) + 1)) *
          (∑ j in Finset.range ((⌊(1 - 0.99) * (n : ℝ)⌋).toNat + 1),
            (List.insertionSort (fun a b : ℝ => a ≤ b) pnl).getD j 0) =
          -((∑ j in Finset.range ((⌊(1 - 0.99) * (n : ℝ)⌋).toNat + 1),
            (List.insertionSort (fun a b : ℝ => a ≤ b) pnl).getD j 0) /
            (((⌊(1 - 0.99) * (n : ℝ)⌋).toNat : ℝ) + 1)) := by
        ring
      show -(1 / _) * _ ≤ -(1 / _) * _
      rw [h1, h2]
      exact neg_le_neg havg

theorem runSims_length (draws : ℕ → ℝ) (m : MarketDataMap) (p : Portfolio)
    (dt sqrt_dt v0 : ℝ) :
    ∀ (count idx : ℕ) (acc : List ℝ) (idx2 : ℕ) (out : List ℝ),
      RiskEngine.runSims draws m p dt sqrt_dt v0 count idx acc = .ok (idx2, out) →
      out.length = acc.length + count := by
  intro count
  induction count with
  | zero =>
    intro idx acc idx2 out h
    simp only [RiskEngine.runSims] at h
    injection h with h
    injection h with h1 h2
    subst h2
    simp
  | succ count ih =>
    intro idx acc idx2 out h
    simp only [RiskEngine.runSims] at h
    cases hs : RiskEngine.simulateOne draws m dt sqrt_dt p idx 0 with
    | error e =>
      rw [hs, except_bind_error] at h
      exact Except.noConfusion h
    | ok r =>
      rw [hs, except_bind_ok] at h
      have := ih r.1 (acc ++ [r.2 - v0]) idx2 out h
      simp only [List.length_append, List.length_cons, List.length_nil] at this
      omega

theorem calculateRiskMetrics_ok_cases (seedStream : ℕ → ℕ → ℝ)
    (e : RiskEngine) (entropy : ℕ) (p : Portfolio) (m : MarketDataMap)
    (mets : RiskMetrics)
    (h : RiskEngine.calculateRiskMetrics seedStream e entropy p m = .ok mets) :
    mets = ⟨0, 0, 0, 0⟩ ∨
    ∃ pnl : List ℝ, pnl.length = e.var_simulations.toNat ∧
      RiskEngine.metricsFromPnl e.var_simulations pnl = .ok mets := by
  unfold RiskEngine.calculateRiskMetrics at h
  cases hv0 : RiskEngine.initialValue m p 0 with
  | error e' =>
    rw [hv0, except_bind_error] at h
    exact Except.noConfusion h
  | ok v0 =>
    rw [hv0, except_bind_ok] at h
    by_cases hz : |v0| < 1e-10
    · rw [if_pos hz] at h
      injection h with h
      exact Or.inl h.symm
    · rw [if_neg hz] at h
      cases hrs : RiskEngine.runSims (seedStream
          (if e.use_fixed_seed then e.random_seed else entropy)) m p
          (e.time_horizon_days / 252) (Real.sqrt (e.time_horizon_days / 252)) v0
          e.var_simulations.toNat 0 [] with
      | error e' =>
        rw [hrs, except_bind_error] at h
        exact Except.noConfusion h
      | ok res =>
        rw [hrs, except_bind_ok] at h
        obtain ⟨idx2, out⟩ := res
        refine Or.inr ⟨out, ?_, h⟩
        have := runSims_length (seedStream
          (if e.use_fixed_seed then e.random_seed else entropy)) m p
          (e.time_horizon_days / 252) (Real.sqrt (e.time_horizon_days / 252)) v0
          e.var_simulations.toNat 0 [] idx2 out hrs
        simpa using this

/-- C5 (amended): for every successful `calculatePortfolioRisk` call the
risk measures satisfy `VaR99 ≥ VaR95`, `ES95 ≥ VaR95`, `ES99 ≥ VaR99` and
`ES99 ≥ ES95`.  The non-negativity part of the original claim is false (see
`c5_counterexample`): the code reports the empirical quantile with its sign,
which is negative whenever the whole sorted tail of the P&L distribution is
a gain. -/
theorem c5_risk_measure_monotonicity (seedStream : ℕ → ℕ → ℝ)
    (e : RiskEngine) (entropy : ℕ) (p : Portfolio) (m : MarketDataMap)
    (r : PortfolioRiskResult)
    (h : RiskEngine.calculatePortfolioRisk seedStream e entropy p m = .ok r) :
    r.value_at_risk_95 ≤ r.value_at_risk_99 ∧
    r.value_at_risk_95 ≤ r.expected_shortfall_95 ∧
    r.value_at_risk_99 ≤ r.expected_shortfall_99 ∧
    r.expected_shortfall_95 ≤ r.expected_shortfall_99 := by
  unfold RiskEngine.calculatePortfolioRisk at h
  cases hv : RiskEngine.validateParameters e with
  | error e' =>
    rw [hv, except_bind_error] at h
    exact Except.noConfusion h
  | ok u =>
    rw [hv, except_bind_ok] at h
    by_cases hemp : p.isEmpty
    · rw [if_pos hemp] at h
      injection h with h
      subst h
      norm_num
    · rw [if_neg hemp] at h
      cases hvm : RiskEngine.validateMarketData m p with
      | error e' =>
        rw [hvm, except_bind_error] at h
        exact Except.noConfusion h
      | ok u2 =>
        rw [hvm, except_bind_ok] at h
        cases hag : RiskEngine.aggregatePositions m p ⟨0, 0, 0, 0, 0⟩ with
        | error e' =>
          rw [hag, except_bind_error] at h
          exact Except.noConfusion h
        | ok totals =>
          rw [hag, except_bind_ok] at h
          cases hm : RiskEngine.calculateRiskMetrics seedStream e entropy p m with
          | error e' =>
            rw [hm] at h
            have h2 : (Except.error (Err.runtimeError "Risk metrics calculation failed") :
                Except Err PortfolioRiskResult) = Except.ok r := h
            exact Except.noConfusion h2
          | ok mets =>
            rw [hm] at h
            have h2 : (Except.ok ⟨totals.pv, totals.delta, totals.gamma,
                totals.vega, totals.theta, mets.var_95, mets.var_99, mets.es_95,
                mets.es_99⟩ : Except Err PortfolioRiskResult) = Except.ok r := h
            injection h2 with h2
            subst h2
            have hcases := calculateRiskMetrics_ok_cases seedStream e entropy
              p m mets hm
            rcases hcases with hzero | ⟨pnl, hlen, hmfp⟩
            · subst hzero
              norm_num
            · exact metricsFromPnl_ok_inequalities e.var_simulations pnl mets
                hlen hmfp

/-- Concrete portfolio for the C5 counterexample: one long European call,
strike `50`, expiry `1`, on asset `A`. -/
def c5Portfolio : Portfolio :=
  [(Instrument.european ⟨OptionType.Call, 50, 1, "A"⟩, 1)]

/-- Concrete market data for the C5 counterexample: spot `100`, risk-free
rate `1`, volatility `0`. -/
def c5Market : MarketDataMap :=
  fun id => if id = "A" then some ⟨"A", 100, 1, 0, 0⟩ else none

/-- The result of the C5 counterexample run: with zero volatility and a
positive rate every simulated P&L is the positive deterministic gain
`100 e^{1/252} - 100`, so all four risk measures are negative. -/
noncomputable def c5Result : PortfolioRiskResult :=
  ⟨50, 1, 0, 0, 0,
    -(100 * Real.exp (1 / 252) - 100), -(100 * Real.exp (1 / 252) - 100),
    -(100 * Real.exp (1 / 252) - 100), -(100 * Real.exp (1 / 252) - 100)⟩

theorem c5_engine_validateParameters :
    RiskEngine.validateParameters ⟨1, 1, 0, true⟩ = .ok () := by
  unfold RiskEngine.validateParameters
  rw [if_neg (by decide : ¬((1:ℤ) ≤ 0 ∨ (1:ℤ) > 1000000))]
  rw [if_neg (by norm_num : ¬((1:ℝ) ≤ 0 ∨ (1:ℝ) > 252))]

/-- C5 counterexample: a single long call with zero volatility and risk-free
rate `1` produces a strictly positive deterministic one-day P&L, so the
reported `value_at_risk_95` is strictly negative, refuting the
non-negativity part of the claim. -/
theorem c5_counterexample :
    RiskEngine.calculatePortfolioRisk (fun _ _ => (0:ℝ)) ⟨1, 1, 0, true⟩ 0
      c5Portfolio c5Market = .ok c5Result ∧ c5Result.value_at_risk_95 < 0 := by
  have hPrice :
      Instrument.price (Instrument.european ⟨OptionType.Call, 50, 1, "A"⟩)
        ⟨"A", 100, 1, 0, 0⟩ = .ok 50 := by
    show BlackScholes.callPrice 100 50 1 1 0 = .ok 50
    rw [BlackScholes.callPrice_ok 100 50 1 1 0 (by norm_num) (by norm_num)
      (by norm_num) le_rfl]
    unfold BlackScholes.callValue
    rw [if_pos (Or.inr le_rfl)]
    norm_num
  have hDelta :
      Instrument.delta (Instrument.european ⟨OptionType.Call, 50, 1, "A"⟩)
        ⟨"A", 100, 1, 0, 0⟩ = .ok 1 := by
    show BlackScholes.callDelta 100 50 1 1 0 = .ok 1
    unfold BlackScholes.callDelta
    rw [BlackScholes.validateInputs_ok 100 50 1 1 0 (by norm_num) (by norm_num)
      (by norm_num) le_rfl, except_bind_ok]
    rw [if_pos (Or.inr le_rfl), if_pos (by norm_num : (100:ℝ) > 50)]
    rfl
  have hGamma :
      Instrument.gamma (Instrument.european ⟨OptionType.Call, 50, 1, "A"⟩)
        ⟨"A", 100, 1, 0, 0⟩ = .ok 0 := by
    show BlackScholes.gamma 100 50 1 1 0 = .ok 0
    unfold BlackScholes.gamma
    rw [BlackScholes.validateInputs_ok 100 50 1 1 0 (by norm_num) (by norm_num)
      (by norm_num) le_rfl, except_bind_ok]
    rw [if_pos (Or.inr le_rfl)]
    rfl
  have hVega :
      Instrument.vega (Instrument.european ⟨OptionType.Call, 50, 1, "A"⟩)
        ⟨"A", 100, 1, 0, 0⟩ = .ok 0 := by
    show BlackScholes.vega 100 50 1 1 0 = .ok 0
    unfold BlackScholes.vega
    rw [BlackScholes.validateInputs_ok 100 50 1 1 0 (by norm_num) (by norm_num)
      (by norm_num) le_rfl, except_bind_ok]
    rw [if_pos (Or.inr le_rfl)]
    rfl
  have hTheta :
      Instrument.theta (Instrument.european ⟨OptionType.Call, 50, 1, "A"⟩)
        ⟨"A", 100, 1, 0, 0⟩ = .ok 0 := by
    show BlackScholes.callTheta 100 50 1 1 0 = .ok 0
    unfold BlackScholes.callTheta
    rw [BlackScholes.validateInputs_ok 100 50 1 1 0 (by norm_num) (by norm_num)
      (by norm_num) le_rfl, except_bind_ok]
    rw [if_pos (Or.inr le_rfl)]
    rfl
  have hMPrice :
      RiskEngine.calculateSingleInstrumentMetric
        (Instrument.european ⟨OptionType.Call, 50, 1, "A"⟩) 1
        ⟨"A", 100, 1, 0, 0⟩ "price" = .ok 50 := by
    unfold RiskEngine.calculateSingleInstrumentMetric
    rw [if_pos rfl, hPrice]
    norm_num
  have hMDelta :
      RiskEngine.calculateSingleInstrumentMetric
        (Instrument.european ⟨OptionType.Call, 50, 1, "A"⟩) 1
        ⟨"A", 100, 1, 0, 0⟩ "delta" = .ok 1 := by
    unfold RiskEngine.calculateSingleInstrumentMetric
    rw [if_neg (by decide : ¬("delta" = "price")), if_pos rfl, hDelta]
    norm_num
  have hMGamma :
      RiskEngine.calculateSingleInstrumentMetric
        (Instrument.european ⟨OptionType.Call, 50, 1, "A"⟩) 1
        ⟨"A", 100, 1, 0, 0⟩ "gamma" = .ok 0 := by
    unfold RiskEngine.calculateSingleInstrumentMetric
    rw [if_neg (by decide : ¬("gamma" = "price")),
      if_neg (by decide : ¬("gamma" = "delta")), if_pos rfl, hGamma]
    norm_num
  have hMVega :
      RiskEngine.calculateSingleInstrumentMetric
        (Instrument.european ⟨OptionType.Call, 50, 1, "A"⟩) 1
        ⟨"A", 100, 1, 0, 0⟩ "vega" = .ok 0 := by
    unfold RiskEngine.calculateSingleInstrumentMetric
    rw [if_neg (by decide : ¬("vega" = "price")),
      if_neg (by decide : ¬("vega" = "delta")),
      if_neg (by decide : ¬("vega" = "gamma")), if_pos rfl, hVega]
    norm_num
  have hMTheta :
      RiskEngine.calculateSingleInstrumentMetric
        (Instrument.european ⟨OptionType.Call, 50, 1, "A"⟩) 1
        ⟨"A", 100, 1, 0, 0⟩ "theta" = .ok 0 := by
    unfold RiskEngine.calculateSingleInstrumentMetric
    rw [if_neg (by decide : ¬("theta" = "price")),
      if_neg (by decide : ¬("theta" = "delta")),
      if_neg (by decide : ¬("theta" = "gamma")),
      if_neg (by decide : ¬("theta" = "vega")), if_pos rfl, hTheta]
    norm_num
  have hVMD : RiskEngine.validateMarketData c5Market c5Portfolio = .ok () := by
    unfold c5Portfolio
    norm_num [RiskEngine.validateMarketData, Instrument.getAssetId, c5Market]
    exact fun h => absurd h (by decide)
  have hAgg : RiskEngine.aggregatePositions c5Market c5Portfolio ⟨0, 0, 0, 0, 0⟩ =
      .ok ⟨50, 1, 0, 0, 0⟩ := by
    unfold c5Portfolio
    unfold RiskEngine.aggregatePositions
    rw [show c5Market (Instrument.getAssetId
      (Instrument.european ⟨OptionType.Call, 50, 1, "A"⟩)) =
      some ⟨"A", 100, 1, 0, 0⟩ from rfl]
    simp only [hMPrice, hMDelta, hMGamma, hMVega, hMTheta, except_bind_ok]
    unfold RiskEngine.aggregatePositions
    norm_num
  have hInit : RiskEngine.initialValue c5Market c5Portfolio 0 = .ok 50 := by
    unfold c5Portfolio
    unfold RiskEngine.initialValue
    rw [show c5Market (Instrument.getAssetId
      (Instrument.european ⟨OptionType.Call, 50, 1, "A"⟩)) =
      some ⟨"A", 100, 1, 0, 0⟩ from rfl]
    simp only [hPrice, except_bind_ok]
    unfold RiskEngine.initialValue
    norm_num
  have hSim : RiskEngine.simulateOne (fun _ => (0:ℝ)) c5Market ((1:ℝ)/252)
      (Real.sqrt ((1:ℝ)/252)) c5Portfolio 0 0 =
      .ok (1, 100 * Real.exp ((1:ℝ)/252) - 50) := by
    unfold c5Portfolio
    unfold RiskEngine.simulateOne
    rw [show c5Market (Instrument.getAssetId
      (Instrument.european ⟨OptionType.Call, 50, 1, "A"⟩)) =
      some ⟨"A", 100, 1, 0, 0⟩ from rfl]
    norm_num
    rw [if_neg (not_le.mpr (by positivity : (0:ℝ) < 100 * Real.exp (1 / 252)))]
    have hexp1 : (1:ℝ) ≤ Real.exp ((1:ℝ)/252) := by
      rw [show (1:ℝ) = Real.exp 0 from (Real.exp_zero).symm]
      exact Real.exp_le_exp.mpr (by norm_num)
    have hSimPrice : Instrument.price
        (Instrument.european ⟨OptionType.Call, 50, 1, "A"⟩)
        ⟨"A", 100 * Real.exp ((1:ℝ) / 252), 1, 0, 0⟩ =
        .ok (100 * Real.exp ((1:ℝ) / 252) - 50) := by
      show BlackScholes.callPrice (100 * Real.exp ((1:ℝ) / 252)) 50 1 1 0 =
        .ok (100 * Real.exp ((1:ℝ) / 252) - 50)
      rw [BlackScholes.callPrice_ok _ 50 1 1 0 (by positivity) (by norm_num)
        (by norm_num) le_rfl]
      unfold BlackScholes.callValue
      rw [if_pos (Or.inr le_rfl)]
      rw [max_eq_right (by nlinarith)]
    rw [hSimPrice, except_bind_ok]
    unfold RiskEngine.simulateOne
    rfl
  have hRun : RiskEngine.runSims (fun _ => (0:ℝ)) c5Market c5Portfolio ((1:ℝ)/252)
      (Real.sqrt ((1:ℝ)/252)) 50 1 0 [] =
      .ok (1, [100 * Real.exp ((1:ℝ)/252) - 100]) := by
    rw [show (1:ℕ) = 0 + 1 from rfl]
    unfold RiskEngine.runSims
    rw [hSim, except_bind_ok]
    unfold RiskEngine.runSims
    norm_num
    ring
  have hMet : RiskEngine.metricsFromPnl 1 [100 * Real.exp ((1:ℝ)/252) - 100] =
      .ok ⟨-(100 * Real.exp ((1:ℝ)/252) - 100), -(100 * Real.exp ((1:ℝ)/252) - 100),
        -(100 * Real.exp ((1:ℝ)/252) - 100),
        -(100 * Real.exp ((1:ℝ)/252) - 100)⟩ := by
    rw [metricsFromPnl_eq 1 _ (by norm_num) (by rfl)]
    have h95 : ⌊(1 - 0.95) * (((1:ℤ)) : ℝ)⌋ = 0 := by
      rw [Int.floor_eq_zero_iff, Set.mem_Ico]
      constructor <;> norm_num
    have h99 : ⌊(1 - 0.99) * (((1:ℤ)) : ℝ)⌋ = 0 := by
      rw [Int.floor_eq_zero_iff, Set.mem_Ico]
      constructor <;> norm_num
    have hsort : List.insertionSort (fun a b : ℝ => a ≤ b)
        [100 * Real.exp ((1:ℝ)/252) - 100] = [100 * Real.exp ((1:ℝ)/252) - 100] := rfl
    rw [h95, h99, hsort]
    norm_num [Finset.sum_range_one, List.getD]
  have hRM : RiskEngine.calculateRiskMetrics (fun _ _ => (0:ℝ)) ⟨1, 1, 0, true⟩ 0
      c5Portfolio c5Market =
      .ok ⟨-(100 * Real.exp ((1:ℝ)/252) - 100), -(100 * Real.exp ((1:ℝ)/252) - 100),
        -(100 * Real.exp ((1:ℝ)/252) - 100),
        -(100 * Real.exp ((1:ℝ)/252) - 100)⟩ := by
    unfold RiskEngine.calculateRiskMetrics
    rw [hInit, except_bind_ok]
    rw [if_neg (by norm_num : ¬(|(50:ℝ)| < 1e-10))]
    have hrs : RiskEngine.runSims
        ((fun _ _ => (0:ℝ)) (if (⟨1, 1, 0, true⟩ : RiskEngine).use_fixed_seed then
          (⟨1, 1, 0, true⟩ : RiskEngine).random_seed else 0)) c5Market c5Portfolio
        ((⟨1, 1, 0, true⟩ : RiskEngine).time_horizon_days / 252)
        (Real.sqrt ((⟨1, 1, 0, true⟩ : RiskEngine).time_horizon_days / 252)) 50
        (⟨1, 1, 0, true⟩ : RiskEngine).var_simulations.toNat 0 [] =
        .ok (1, [100 * Real.exp ((1:ℝ)/252) - 100]) := hRun
    rw [hrs, except_bind_ok]
    exact hMet
  constructor
  · unfold RiskEngine.calculatePortfolioRisk
    rw [c5_engine_validateParameters, except_bind_ok]
    rw [if_neg (by decide : ¬(List.isEmpty c5Portfolio = true))]
    rw [hVMD, except_bind_ok]
    rw [hAgg, except_bind_ok]
    rw [hRM]
    rfl
  · show -(100 * Real.exp ((1:ℝ)/252) - 100) < 0
    have h : Real.exp 0 < Real.exp ((1:ℝ)/252) := Real.exp_lt_exp.mpr (by norm_num)
    rw [Real.exp_zero] at h
    linarith

theorem calculatePortfolioRisk_empty_eval :
    RiskEngine.calculatePortfolioRisk (fun _ _ => (0:ℝ)) ⟨1, 1, 0, true⟩ 0 []
      (fun _ => none) = .ok ⟨0, 0, 0, 0, 0, 0, 0, 0, 0⟩ := by
  unfold RiskEngine.calculatePortfolioRisk
  rw [c5_engine_validateParameters, except_bind_ok]
  rfl

/-- C5 witness: the amended monotonicity inequalities instantiated on a
concrete successful run (empty portfolio, all measures zero). -/
theorem c5_risk_measure_monotonicity_witness :
    (⟨0, 0, 0, 0, 0, 0, 0, 0, 0⟩ : PortfolioRiskResult).value_at_risk_95 ≤
      (⟨0, 0, 0, 0, 0, 0, 0, 0, 0⟩ : PortfolioRiskResult).value_at_risk_99 ∧
    (⟨0, 0, 0, 0, 0, 0, 0, 0, 0⟩ : PortfolioRiskResult).value_at_risk_95 ≤
      (⟨0, 0, 0, 0, 0, 0, 0, 0, 0⟩ : PortfolioRiskResult).expected_shortfall_95 ∧
    (⟨0, 0, 0, 0, 0, 0, 0, 0, 0⟩ : PortfolioRiskResult).value_at_risk_99 ≤
      (⟨0, 0, 0, 0, 0, 0, 0, 0, 0⟩ : PortfolioRiskResult).expected_shortfall_99 ∧
    (⟨0, 0, 0, 0, 0, 0, 0, 0, 0⟩ : PortfolioRiskResult).expected_shortfall_95 ≤
      (⟨0, 0, 0, 0, 0, 0, 0, 0, 0⟩ : PortfolioRiskResult).expected_shortfall_99 :=
  c5_risk_measure_monotonicity (fun _ _ => (0:ℝ)) ⟨1, 1, 0, true⟩ 0 []
    (fun _ => none) ⟨0, 0, 0, 0, 0, 0, 0, 0, 0⟩ calculatePortfolioRisk_empty_eval
